import Mathlib

/-!
Verification of the protobuf-to-HTML API documentation generator
(src/api_docs_generator.py) against its natural-language specification.

The Python source is shallowly embedded below.  Python dicts are modelled
as insertion-ordered association lists with overwrite-in-place semantics
(SDict); Python strings are Lean Strings (operated on through their
character lists); the regex-based extraction routines are embedded as
explicit character scanners whose behaviour coincides with the source
patterns under leftmost, non-overlapping matching (each scanner carries a
doc comment relating it to the source pattern).  File-system reads (the
directory walk, template loading, and the one regex probe of on-disk file
contents inside get_type_package) are passed in as explicit parameters,
matching the spec, which scopes those out as simple I/O wrappers.
-/

set_option maxRecDepth 20000

/-- The opening brace character, written via its code point. -/
def openBrace : Char := Char.ofNat 123

/-- The closing brace character, written via its code point. -/
def closeBrace : Char := Char.ofNat 125

/-- The double-quote character. -/
def dquote : Char := Char.ofNat 34

/-- The single-quote character. -/
def squoteChar : Char := Char.ofNat 39

/-- The backslash character. -/
def bslash : Char := Char.ofNat 92

/-- Python regex class backslash-s restricted to ASCII: space, tab,
newline, carriage return, form feed, vertical tab. -/
def isWsPy (c : Char) : Bool :=
  c = ' ' || c = '\t' || c = '\n' || c = '\r' || c = '\x0b' || c = '\x0c'

/-- Python regex class backslash-w restricted to ASCII:
letters, digits and underscore. -/
def isWordPy (c : Char) : Bool :=
  (('a' ≤ c && c ≤ 'z') || ('A' ≤ c && c ≤ 'Z') || ('0' ≤ c && c ≤ '9') || c = '_')

/-- Python regex class backslash-d: ASCII digits. -/
def isDigitPy (c : Char) : Bool := '0' ≤ c && c ≤ '9'

/-- Whether pat is a prefix of l (decidable, on character lists). -/
def isPrefChars : List Char → List Char → Bool
  | [], _ => true
  | _ :: _, [] => false
  | p :: ps, x :: xs => p = x && isPrefChars ps xs

/-- Whether pat occurs as a contiguous substring of hay (character lists);
models the Python expression pat in hay. -/
def containsSub (hay pat : List Char) : Bool :=
  if isPrefChars pat hay then true
  else
    match hay with
    | [] => false
    | _ :: t => containsSub t pat

/-- Python substring test s2 in s1, on Lean strings. -/
def strContains (s1 s2 : String) : Bool := containsSub s1.toList s2.toList

/-- Python str.endswith. -/
def strEndsWith (s suffix : String) : Bool := List.isSuffixOf suffix.toList s.toList

/-- Python int() on a run of ASCII digits. -/
def digitsToNat (l : List Char) : Nat :=
  l.foldl (fun acc c => acc * 10 + (c.toNat - '0'.toNat)) 0

/-- Python str.lower on one ASCII character (inputs here are ASCII). -/
def pyLowerChar (c : Char) : Char :=
  if 'A' ≤ c && c ≤ 'Z' then Char.ofNat (c.toNat + 32) else c

/-- Python str.lower (ASCII). -/
def pyLower (s : String) : String := String.mk (s.toList.map pyLowerChar)

/-- Python str.upper on one ASCII character. -/
def pyUpperChar (c : Char) : Char :=
  if 'a' ≤ c && c ≤ 'z' then Char.ofNat (c.toNat - 32) else c

/-- Python str.upper (ASCII). -/
def pyUpper (s : String) : String := String.mk (s.toList.map pyUpperChar)

/-- Python str.startswith. -/
def pyStartsWith (s pre : String) : Bool := isPrefChars pre.toList s.toList

/-- Python whitespace for str.strip. -/
def isStripWs (c : Char) : Bool := isWsPy c

/-- Python str.strip with no argument. -/
def pyStrip (s : String) : String :=
  String.mk (((s.toList.dropWhile isStripWs).reverse.dropWhile isStripWs).reverse)

/-- Python s.split(sep) for a one-character separator: the pieces between
occurrences, with empty pieces kept (never the empty list). -/
def splitOnCharAux (sep : Char) : List Char → List Char → List String
  | [], acc => [String.mk acc.reverse]
  | c :: rest, acc =>
    if c = sep then String.mk acc.reverse :: splitOnCharAux sep rest []
    else splitOnCharAux sep rest (c :: acc)

/-- Python s.split(sep), one-character separator. -/
def splitOnChar (sep : Char) (s : String) : List String :=
  splitOnCharAux sep s.toList []

/-- Python string comparison: lexicographic by code point. -/
def strLtChars : List Char → List Char → Bool
  | [], [] => false
  | [], _ :: _ => true
  | _ :: _, [] => false
  | a :: as, b :: bs => if a = b then strLtChars as bs else decide (a < b)

/-- Python a < b on strings. -/
def strLtB (a b : String) : Bool := strLtChars a.toList b.toList

/-- Python str.replace (all occurrences, left to right, non-overlapping),
on character lists; the fuel is the remaining length, sufficient because
every step consumes at least one character (an empty pattern never occurs
here). -/
def pyReplaceAux (pat repl : List Char) : Nat → List Char → List Char
  | 0, l => l
  | fuel + 1, l =>
    if pat ≠ [] && isPrefChars pat l then
      repl ++ pyReplaceAux pat repl fuel (l.drop pat.length)
    else
      match l with
      | [] => []
      | c :: rest => c :: pyReplaceAux pat repl fuel rest

/-- Python str.replace. -/
def pyReplace (s pat repl : String) : String :=
  String.mk (pyReplaceAux pat.toList repl.toList s.toList.length s.toList)

/-- Python sep.join(l). -/
def pyJoin (sep : String) (l : List String) : String :=
  match l with
  | [] => ""
  | x :: xs => xs.foldl (fun acc y => acc ++ sep ++ y) x

section SDict

variable {α : Type}

/-- A Python dict modelled as an insertion-ordered association list whose
keys are kept unique by dinsert (overwrite keeps the original position,
a fresh key is appended at the end). -/
abbrev SDict (α : Type) : Type := List (String × α)

/-- Python d[k] = v on an SDict. -/
def dinsert (d : SDict α) (k : String) (v : α) : SDict α :=
  if d.any (fun p => p.1 = k) then
    d.map (fun p => if p.1 = k then (k, v) else p)
  else d ++ [(k, v)]

/-- Python d.get(k): the first binding of k, if any. -/
def dlookup (d : SDict α) (k : String) : Option α :=
  match d with
  | [] => none
  | p :: rest => if p.1 = k then some p.2 else dlookup rest k

/-- Python d1.update(d2): fold the bindings of d2 into d1 in order. -/
def dupdate (d q : SDict α) : SDict α :=
  q.foldl (fun acc p => dinsert acc p.1 p.2) d

end SDict

/-!
## The Delimiter Matcher (ProtoParser._find_matching_brace)
-/

/-- Source: _find_matching_brace.  Scans content from startPos keeping a
brace counter (increment on an opening brace, decrement on a closing
brace); returns the index where the counter returns to zero after a
decrement, or -1 when the text ends first.  fmbAux processes the suffix,
carrying the absolute index and the running counter. -/
def fmbAux : List Char → Nat → Int → Int
  | [], _, _ => -1
  | c :: rest, i, count =>
    if c = openBrace then fmbAux rest (i + 1) (count + 1)
    else if c = closeBrace then
      if count - 1 = 0 then (i : Int) else fmbAux rest (i + 1) (count - 1)
    else fmbAux rest (i + 1) count

/-- Source: _find_matching_brace(content, start_pos). -/
def findMatchingBrace (content : List Char) (startPos : Nat) : Int :=
  fmbAux (content.drop startPos) startPos 0

/-- The contribution of one character to the running brace depth. -/
def charDelta (c : Char) : Int :=
  if c = openBrace then 1 else if c = closeBrace then -1 else 0

/-- Net brace balance (opens minus closes) of a character list. -/
def braceBal : List Char → Int
  | [] => 0
  | c :: rest => charDelta c + braceBal rest

/-- Specification-side predicate: position k of l is a closing brace at
which the depth counter started at count first returns to zero (the take
includes position k itself). -/
def isMatchAt (l : List Char) (count : Int) (k : Nat) : Prop :=
  l.get? k = some closeBrace ∧ count + braceBal (l.take (k + 1)) = 0

instance (l : List Char) (count : Int) (k : Nat) : Decidable (isMatchAt l count k) := by
  unfold isMatchAt; infer_instance

/-!
## Data model (the dataclasses of the source)
-/

/-- Source: dataclass ProtoField. -/
structure ProtoField where
  name : String
  type : String
  number : Nat
  label : String := ""
  comment : String := ""
  isDeprecated : Bool := false
deriving Repr, DecidableEq

/-- Source: dataclass ProtoMessage.  Every constructed message receives a
source file tag (the Python code sets the attribute right after
construction); nested_messages and nested enums are never populated by the
parser and are omitted. -/
structure ProtoMessage where
  name : String
  fields : List ProtoField := []
  comment : String := ""
  sourceFile : String := ""
deriving Repr, DecidableEq

/-- Source: dataclass ProtoEnum; values is a Python dict name to int. -/
structure ProtoEnum where
  name : String
  values : SDict Nat := []
  comment : String := ""
  sourceFile : String := ""
deriving Repr, DecidableEq

/-- Source: dataclass ProtoMethod. -/
structure ProtoMethod where
  name : String
  inputType : String
  outputType : String
  comment : String := ""
  httpMethod : String := ""
  httpPath : String := ""
  httpBody : String := ""
deriving Repr, DecidableEq

/-- Source: dataclass ProtoService. -/
structure ProtoService where
  name : String
  methods : List ProtoMethod := []
  comment : String := ""
  sourceFile : String := ""
deriving Repr, DecidableEq

/-- The mutable state of class ProtoParser: the global registry. -/
structure Registry where
  messages : SDict ProtoMessage := []
  services : SDict ProtoService := []
  enums : SDict ProtoEnum := []
  packages : SDict String := []
  imports : SDict (List String) := []
deriving Repr, DecidableEq

/-!
## Scanner combinators for the source regexes

Each Python regex used by the extractor is embedded as a deterministic
scanner.  For every pattern below, greedy matching with backtracking is
equivalent to the committed scanning implemented here; where a pattern has
a genuine backtracking point (the optional field label) the fallback is
implemented explicitly.  Scans are leftmost and non-overlapping exactly as
re.finditer / re.search behave: a failed attempt advances one character, a
successful one resumes at the match end.
-/

/-- Consume one or more characters satisfying p (regex class with plus,
greedy); fails on an empty run. -/
def takeWhile1 (p : Char → Bool) (l : List Char) : Option (List Char × List Char) :=
  match l.takeWhile p with
  | [] => none
  | t => some (t, l.drop t.length)

/-- Consume zero or more whitespace characters (regex backslash-s star). -/
def skipWs (l : List Char) : List Char := l.dropWhile isWsPy

/-- Consume one or more whitespace characters (regex backslash-s plus). -/
def skipWs1 (l : List Char) : Option (List Char) :=
  match l with
  | c :: rest => if isWsPy c then some (skipWs rest) else none
  | [] => none

/-- Consume an exact literal. -/
def litStr (s : String) (l : List Char) : Option (List Char) :=
  if isPrefChars s.toList l then some (l.drop s.toList.length) else none

/-- Consume one exact character. -/
def litChar (c : Char) (l : List Char) : Option (List Char) :=
  match l with
  | x :: rest => if x = c then some rest else none
  | [] => none

/-- Greedy dotted identifier, regex backslash-w plus followed by zero or
more of (dot backslash-w plus); returns the consumed characters. -/
def dottedNameAux : Nat → List Char → List Char → (List Char × List Char)
  | 0, acc, l => (acc, l)
  | fuel + 1, acc, l =>
    match l with
    | '.' :: rest =>
      match takeWhile1 isWordPy rest with
      | some (seg, rest') => dottedNameAux fuel (acc ++ '.' :: seg) rest'
      | none => (acc, l)
    | _ => (acc, l)

/-- Regex (backslash-w+(?:backslash-.backslash-w+)*). -/
def dottedName (l : List Char) : Option (List Char × List Char) :=
  match takeWhile1 isWordPy l with
  | some (seg, rest) => some (dottedNameAux rest.length seg rest)
  | none => none

/-!
## Comment stripping (parse_file, the two re.sub calls)
-/

/-- The characters after the first block-comment terminator, if any. -/
def afterBlockClose : List Char → Option (List Char)
  | '*' :: '/' :: r => some r
  | _ :: r => afterBlockClose r
  | [] => none

/-- Source: re.sub of slash-star dot-star-lazy star-slash with DOTALL:
remove each block comment from its opener to the next terminator,
non-overlapping, left to right; an unterminated opener is left in place
(and then no further comment can terminate either).  The fuel is the
remaining length; each step consumes at least one character, so the
initial fuel is always sufficient. -/
def stripBlockCommentsAux : Nat → List Char → List Char
  | 0, l => l
  | fuel + 1, l =>
    match l with
    | '/' :: '*' :: rest =>
      match afterBlockClose rest with
      | some r => stripBlockCommentsAux fuel r
      | none => l
    | c :: rest => c :: stripBlockCommentsAux fuel rest
    | [] => []

def stripBlockComments (l : List Char) : List Char := stripBlockCommentsAux l.length l

/-- Source: re.sub of slash-slash dot-star-lazy dollar with MULTILINE:
remove from each double slash to the end of its line, keeping the
newline. -/
def stripLineCommentsAux : Nat → List Char → List Char
  | 0, l => l
  | fuel + 1, l =>
    match l with
    | '/' :: '/' :: rest => stripLineCommentsAux fuel (rest.dropWhile (fun c => c ≠ '\n'))
    | c :: rest => c :: stripLineCommentsAux fuel rest
    | [] => []

def stripLineComments (l : List Char) : List Char := stripLineCommentsAux l.length l

/-!
## Package and import extraction (parse_file, before comment stripping)
-/

/-- One attempt of the package regex at the current position: the literal,
one or more spaces, a maximal run of word or dot characters, a semicolon.
Shorter runs of the greedy class end at a class character, never at the
semicolon, so no backtracking arises. -/
def matchPackageAt (l : List Char) : Option String := do
  let r ← litStr "package" l
  let r ← skipWs1 r
  let (cap, r) ← takeWhile1 (fun c => isWordPy c || c = '.') r
  let _ ← litChar ';' r
  pure (String.mk cap)

/-- re.search: first position at which the package pattern matches. -/
def searchPackage : Nat → List Char → Option String
  | 0, _ => none
  | fuel + 1, l =>
    match matchPackageAt l with
    | some p => some p
    | none =>
      match l with
      | [] => none
      | _ :: t => searchPackage fuel t

/-- One attempt of the import regex: literal, spaces, a quoted nonempty
path, a semicolon. -/
def matchImportAt (l : List Char) : Option (String × List Char) := do
  let r ← litStr "import" l
  let r ← skipWs1 r
  let r ← litChar dquote r
  let (cap, r) ← takeWhile1 (fun c => c ≠ dquote) r
  let r ← litChar dquote r
  let r ← litChar ';' r
  pure (String.mk cap, r)

/-- re.findall of the import pattern: all non-overlapping matches. -/
def findImports : Nat → List Char → List String
  | 0, _ => []
  | fuel + 1, l =>
    match matchImportAt l with
    | some (s, r) => s :: findImports fuel r
    | none =>
      match l with
      | [] => []
      | _ :: t => findImports fuel t

/-!
## Service extraction (_parse_services)
-/

/-- One attempt of the service head pattern: literal, spaces, a name,
optional spaces, an opening brace.  Returns the name and the suffix
starting at the brace (match end minus one in the source). -/
def matchServiceHead (l : List Char) : Option (String × List Char) := do
  let r ← litStr "service" l
  let r ← skipWs1 r
  let (name, r) ← takeWhile1 isWordPy r
  let r2 := skipWs r
  match r2 with
  | c :: _ => if c = openBrace then pure (String.mk name, r2) else none
  | [] => none

/-- Given a suffix whose head is an opening brace, the text between it and
its matching brace, and the text after the closing brace; none when
_find_matching_brace reports no match.  Uses the embedded
_find_matching_brace on the suffix (the source passes absolute indices;
the computations agree because the matcher only reads the suffix). -/
def spanBrace (l : List Char) : Option (List Char × List Char) :=
  let j := findMatchingBrace l 0
  if j = -1 then none
  else some ((l.take j.toNat).drop 1, l.drop (j.toNat + 1))

/-- One attempt of the rpc head pattern. Returns name, input type, output
type, and the suffix starting at the opening brace of the method body. -/
def matchRpcHead (l : List Char) : Option ((String × String × String) × List Char) := do
  let r ← litStr "rpc" l
  let r ← skipWs1 r
  let (name, r) ← takeWhile1 isWordPy r
  let r := skipWs r
  let r ← litChar '(' r
  let (inp, r) ← takeWhile1 isWordPy r
  let r ← litChar ')' r
  let r := skipWs r
  let r ← litStr "returns" r
  let r := skipWs r
  let r ← litChar '(' r
  let (out, r) ← takeWhile1 isWordPy r
  let r ← litChar ')' r
  let r2 := skipWs r
  match r2 with
  | c :: _ => if c = openBrace then pure ((String.mk name, String.mk inp, String.mk out), r2) else none
  | [] => none

/-- One attempt of the HTTP option head pattern inside a method body:
option, spaces, the literal parenthesised google.api.http, optional
spaces, equals, optional spaces, an opening brace.  Returns the suffix at
the brace. -/
def matchHttpHead (l : List Char) : Option (List Char) := do
  let r ← litStr "option" l
  let r ← skipWs1 r
  let r ← litStr "(google.api.http)" r
  let r := skipWs r
  let r ← litChar '=' r
  let r2 := skipWs r
  match r2 with
  | c :: _ => if c = openBrace then pure r2 else none
  | [] => none

/-- re.search for the HTTP option head. -/
def searchHttpHead : Nat → List Char → Option (List Char)
  | 0, _ => none
  | fuel + 1, l =>
    match matchHttpHead l with
    | some r => some r
    | none =>
      match l with
      | [] => none
      | _ :: t => searchHttpHead fuel t

/-- One attempt of a verb pattern (the f-string verb colon
backslash-s star quote [^quote]+ quote): the verb literal, a colon,
optional whitespace, then a nonempty quoted path. -/
def matchVerbAt (verb : String) (l : List Char) : Option String := do
  let r ← litStr verb l
  let r ← litChar ':' r
  let r := skipWs r
  let r ← litChar dquote r
  let (cap, r) ← takeWhile1 (fun c => c ≠ dquote) r
  let _ ← litChar dquote r
  pure (String.mk cap)

/-- re.search for one verb pattern. -/
def searchVerb (verb : String) : Nat → List Char → Option String
  | 0, _ => none
  | fuel + 1, l =>
    match matchVerbAt verb l with
    | some p => some p
    | none =>
      match l with
      | [] => none
      | _ :: t => searchVerb verb fuel t

/-- The verb keywords, in the order the source iterates them. -/
def httpVerbs : List String := ["get", "post", "put", "delete", "patch"]

/-- The first verb in list order whose pattern matches somewhere in the
option block, with its captured path (the source breaks on the first). -/
def firstVerbMatch (opts : List Char) : Option (String × String) :=
  httpVerbs.foldl
    (fun acc verb =>
      match acc with
      | some _ => acc
      | none => (searchVerb verb opts.length opts).map (fun path => (verb, path)))
    none

/-- One attempt of the body pattern.  The source writes it as a RAW string
containing double backslash s star, which the regex engine reads as one
literal backslash character followed by zero or more letter-s characters;
only then a quoted (possibly empty) capture.  So ordinary input of the
form body colon space quote mask quote never matches. -/
def matchBodyAt (l : List Char) : Option String := do
  let r ← litStr "body:" l
  let r ← litChar bslash r
  let r := r.dropWhile (fun c => c = 's')
  let r ← litChar dquote r
  let cap := r.takeWhile (fun c => c ≠ dquote)
  let r := r.drop cap.length
  let _ ← litChar dquote r
  pure (String.mk cap)

/-- re.search for the body pattern. -/
def searchBody : Nat → List Char → Option String
  | 0, _ => none
  | fuel + 1, l =>
    match matchBodyAt l with
    | some p => some p
    | none =>
      match l with
      | [] => none
      | _ :: t => searchBody fuel t

/-- HTTP annotation extraction from one method body (the part of
_parse_services between the http head search and the method append):
verb uppercased with its path from the first matching verb pattern, and
the body capture, defaulting to empty strings. -/
def extractHttp (methodBody : List Char) : String × String × String :=
  match searchHttpHead methodBody.length methodBody with
  | some atBrace =>
    match spanBrace atBrace with
    | some (opts, _) =>
      let vp := match firstVerbMatch opts with
        | some (verb, path) => (pyUpper verb, path)
        | none => ("", "")
      let b := (searchBody opts.length opts).getD ""
      (vp.1, vp.2, b)
    | none => ("", "", "")
  | none => ("", "", "")

/-- A ProtoMethod as _parse_services constructs it from one rpc match. -/
def mkMethod (name inp out : String) (methodBody : List Char) : ProtoMethod :=
  let h := extractHttp methodBody
  { name := name, inputType := inp, outputType := out,
    httpMethod := h.1, httpPath := h.2.1, httpBody := h.2.2 }

/-- The rpc finditer loop over one service body.  On a head match the scan
resumes after the opening brace (the head match end), exactly as finditer
does; a body without a matching brace drops the method. -/
def scanRpcs : Nat → List Char → List ProtoMethod
  | 0, _ => []
  | fuel + 1, l =>
    match matchRpcHead l with
    | some (nio, atBrace) =>
      match spanBrace atBrace with
      | some (body, _) => mkMethod nio.1 nio.2.1 nio.2.2 body :: scanRpcs fuel (atBrace.drop 1)
      | none => scanRpcs fuel (atBrace.drop 1)
    | none =>
      match l with
      | [] => []
      | _ :: t => scanRpcs fuel t

/-- The service finditer loop over one file (after comment stripping). -/
def scanServices (filepath : String) : Nat → List Char → List ProtoService
  | 0, _ => []
  | fuel + 1, l =>
    match matchServiceHead l with
    | some (name, atBrace) =>
      match spanBrace atBrace with
      | some (body, _) =>
        { name := name, methods := scanRpcs body.length body, sourceFile := filepath }
          :: scanServices filepath fuel (atBrace.drop 1)
      | none => scanServices filepath fuel (atBrace.drop 1)
    | none =>
      match l with
      | [] => []
      | _ :: t => scanServices filepath fuel t

/-!
## Message and enum extraction (_parse_messages, _parse_enums)

The message pattern brackets its body as one-or-more non-brace characters
followed by a starred group of brace pairs.  Under greedy matching the
leading class runs to the first closing brace; the star then faces that
closing brace and iterates zero times, and the final literal consumes it,
so the whole pattern is equivalent to: head, then a nonempty run of
non-closing-brace characters, then one closing brace.  When no closing
brace exists ahead, every alternative inside the star also needs one, so
the attempt fails.  The enum pattern has this form literally.
-/

/-- One attempt of the message head: literal, spaces, name, optional
spaces, an opening brace; returns the suffix at the brace. -/
def matchMessageHead (l : List Char) : Option (String × List Char) := do
  let r ← litStr "message" l
  let r ← skipWs1 r
  let (name, r) ← takeWhile1 isWordPy r
  let r2 := skipWs r
  match r2 with
  | c :: _ => if c = openBrace then pure (String.mk name, r2) else none
  | [] => none

/-- One attempt of the enum head. -/
def matchEnumHead (l : List Char) : Option (String × List Char) := do
  let r ← litStr "enum" l
  let r ← skipWs1 r
  let (name, r) ← takeWhile1 isWordPy r
  let r2 := skipWs r
  match r2 with
  | c :: _ => if c = openBrace then pure (String.mk name, r2) else none
  | [] => none

/-- The ProtoField constructed from one field-pattern match, mirroring the
group uses in _parse_messages: the comment capture is stripped and the
deprecated flag tests the lowercased option capture for the exact
substring deprecated space equals space true. -/
def mkProtoField (label ftype fname : String) (number : Nat) (options comment : String) :
    ProtoField :=
  { name := fname, type := ftype, number := number, label := label,
    comment := pyStrip comment,
    isDeprecated := strContains (pyLower options) "deprecated = true" }

/-- The optional bracketed option group of the field pattern: optional
whitespace, an opening bracket, a possibly empty run without closing
brackets, a closing bracket.  When the group fails (no bracket, or an
unterminated one) the match resumes where it began with an empty
capture. -/
def matchOptsGroup (l : List Char) : String × List Char :=
  let r := skipWs l
  match r with
  | c :: r2 =>
    if c = '[' then
      let inner := r2.takeWhile (fun c => c ≠ ']')
      let after := r2.drop inner.length
      match after with
      | _ :: rest => (String.mk inner, rest)
      | [] => ("", l)
    else ("", l)
  | [] => ("", l)

/-- The optional trailing-comment group of the field and enum-value
patterns: optional whitespace, a semicolon, one slash, an optional second
slash, optional whitespace, then a capture running to the end of the
line.  When it fails the match resumes where it began. -/
def matchCommentGroup (l : List Char) : String × List Char :=
  let r := skipWs l
  match r with
  | ';' :: r2 =>
    match r2 with
    | '/' :: r3 =>
      let r4 := match r3 with
        | '/' :: r5 => r5
        | _ => r3
      let r5 := skipWs r4
      let cap := r5.takeWhile (fun c => c ≠ '\n')
      (String.mk cap, r5.drop cap.length)
    | _ => ("", l)
  | _ => ("", l)

/-- The mandatory part of the field pattern after the optional label:
dotted type, whitespace, name, equals with optional surrounding
whitespace, a number, then the two optional groups. -/
def matchFieldCore (l : List Char) :
    Option ((String × String × Nat × String × String) × List Char) := do
  let (ftype, r) ← dottedName l
  let r ← skipWs1 r
  let (fname, r) ← takeWhile1 isWordPy r
  let r := skipWs r
  let r ← litChar '=' r
  let r := skipWs r
  let (digits, r) ← takeWhile1 isDigitPy r
  let orest := matchOptsGroup r
  let crest := matchCommentGroup orest.2
  pure ((String.mk ftype, String.mk fname, digitsToNat digits, orest.1, crest.1), crest.2)

/-- The field labels, in the alternation order of the pattern. -/
def fieldLabels : List String := ["repeated", "optional", "required"]

/-- The optional label group: one of the three keywords followed by
whitespace.  At most one keyword literal can match at a given position, so
trying them in order is the full alternation. -/
def tryLabel (l : List Char) : Option (String × List Char) :=
  fieldLabels.foldl
    (fun acc lbl =>
      match acc with
      | some _ => acc
      | none =>
        match litStr lbl l with
        | some r => (skipWs1 r).map (fun r2 => (lbl, r2))
        | none => none)
    none

/-- One attempt of the full field pattern.  If the label group matches but
the remainder fails, the engine backtracks to the label-free reading in
which the keyword itself becomes the type; that single backtracking point
is implemented explicitly. -/
def matchFieldAt (l : List Char) : Option (ProtoField × List Char) :=
  let noLabel := (matchFieldCore l).map
    (fun pr => (mkProtoField "" pr.1.1 pr.1.2.1 pr.1.2.2.1 pr.1.2.2.2.1 pr.1.2.2.2.2, pr.2))
  match tryLabel l with
  | some (lbl, r) =>
    match matchFieldCore r with
    | some pr =>
      some (mkProtoField lbl pr.1.1 pr.1.2.1 pr.1.2.2.1 pr.1.2.2.2.1 pr.1.2.2.2.2, pr.2)
    | none => noLabel
  | none => noLabel

/-- The field finditer loop over one message body. -/
def scanFields : Nat → List Char → List ProtoField
  | 0, _ => []
  | fuel + 1, l =>
    match matchFieldAt l with
    | some (f, rest) => f :: scanFields fuel rest
    | none =>
      match l with
      | [] => []
      | _ :: t => scanFields fuel t

/-- One attempt of the enum value pattern: name, equals with optional
surrounding whitespace, a number, an optional trailing comment that is
parsed but never attached (the source drops group three). -/
def matchEnumValueAt (l : List Char) : Option ((String × Nat) × List Char) := do
  let (name, r) ← takeWhile1 isWordPy l
  let r := skipWs r
  let r ← litChar '=' r
  let r := skipWs r
  let (digits, r) ← takeWhile1 isDigitPy r
  let crest := matchCommentGroup r
  pure ((String.mk name, digitsToNat digits), crest.2)

/-- The enum value finditer loop over one enum body. -/
def scanEnumValues : Nat → List Char → List (String × Nat)
  | 0, _ => []
  | fuel + 1, l =>
    match matchEnumValueAt l with
    | some (v, rest) => v :: scanEnumValues fuel rest
    | none =>
      match l with
      | [] => []
      | _ :: t => scanEnumValues fuel t

/-- The message finditer loop over one file: on a head match the body is
the nonempty run to the first closing brace, which must exist; the scan
resumes after that closing brace (the match end). -/
def scanMessages (filepath : String) : Nat → List Char → List ProtoMessage
  | 0, _ => []
  | fuel + 1, l =>
    match matchMessageHead l with
    | some (name, atBrace) =>
      let inner := atBrace.drop 1
      let run := inner.takeWhile (fun c => c ≠ closeBrace)
      let after := inner.drop run.length
      match run, after with
      | _ :: _, _ :: rest2 =>
        { name := name, fields := scanFields run.length run, sourceFile := filepath }
          :: scanMessages filepath fuel rest2
      | _, _ =>
        match l with
        | [] => []
        | _ :: t => scanMessages filepath fuel t
    | none =>
      match l with
      | [] => []
      | _ :: t => scanMessages filepath fuel t

/-- The enum finditer loop over one file. -/
def scanEnums (filepath : String) : Nat → List Char → List ProtoEnum
  | 0, _ => []
  | fuel + 1, l =>
    match matchEnumHead l with
    | some (name, atBrace) =>
      let inner := atBrace.drop 1
      let run := inner.takeWhile (fun c => c ≠ closeBrace)
      let after := inner.drop run.length
      match run, after with
      | _ :: _, _ :: rest2 =>
        { name := name,
          values := (scanEnumValues run.length run).foldl (fun d p => dinsert d p.1 p.2) [],
          sourceFile := filepath }
          :: scanEnums filepath fuel rest2
      | _, _ =>
        match l with
        | [] => []
        | _ :: t => scanEnums filepath fuel t
    | none =>
      match l with
      | [] => []
      | _ :: t => scanEnums filepath fuel t

/-!
## The registry pipeline (parse_file, _add_well_known_types,
_build_qualified_names, parse_repository)
-/

/-- Source: parse_file.  Package and imports are read from the raw text;
comments are stripped (block first, then line); services, messages and
enums are then extracted in that order, each landing in its global
simple-name-keyed dict. -/
def parseFile (reg : Registry) (filepath : String) (content : String) : Registry :=
  let chars := content.toList
  let reg := match searchPackage chars.length chars with
    | some p => { reg with packages := dinsert reg.packages filepath p }
    | none => reg
  let imps := findImports chars.length chars
  let reg := if imps.isEmpty then reg
    else { reg with imports := dinsert reg.imports filepath imps }
  let stripped := stripLineComments (stripBlockComments chars)
  let reg := (scanServices filepath stripped.length stripped).foldl
    (fun r svc => { r with services := dinsert r.services svc.name svc }) reg
  let reg := (scanMessages filepath stripped.length stripped).foldl
    (fun r m => { r with messages := dinsert r.messages m.name m }) reg
  (scanEnums filepath stripped.length stripped).foldl
    (fun r e => { r with enums := dinsert r.enums e.name e }) reg

/-- Source: _add_well_known_types, verbatim: four built-in messages
registered under simple and qualified keys with synthetic file and
package identities. -/
def addWellKnownTypes (reg : Registry) : Registry :=
  let timestampMsg : ProtoMessage := {
    name := "Timestamp",
    comment := "A Timestamp represents a point in time independent of any time zone or local calendar, encoded as a count of seconds and fractions of seconds at nanosecond resolution.",
    fields := [
      { name := "seconds", type := "int64", number := 1,
        comment := "Represents seconds of UTC time since Unix epoch 1970-01-01T00:00:00Z." },
      { name := "nanos", type := "int32", number := 2,
        comment := "Non-negative fractions of a second at nanosecond resolution." }],
    sourceFile := "google/protobuf/timestamp.proto" }
  let durationMsg : ProtoMessage := {
    name := "Duration",
    comment := "A Duration represents a signed, fixed-length span of time represented as a count of seconds and fractions of seconds at nanosecond resolution.",
    fields := [
      { name := "seconds", type := "int64", number := 1,
        comment := "Signed seconds of the span of time." },
      { name := "nanos", type := "int32", number := 2,
        comment := "Signed fractions of a second at nanosecond resolution of the span of time." }],
    sourceFile := "google/protobuf/duration.proto" }
  let anyMsg : ProtoMessage := {
    name := "Any",
    comment := "Any contains an arbitrary serialized protocol buffer message along with a URL that describes the type of the serialized message.",
    fields := [
      { name := "type_url", type := "string", number := 1,
        comment := "A URL/resource name that uniquely identifies the type of the serialized protocol buffer message." },
      { name := "value", type := "bytes", number := 2,
        comment := "Must be a valid serialized protocol buffer of the above specified type." }],
    sourceFile := "google/protobuf/any.proto" }
  let payloadMsg : ProtoMessage := {
    name := "Payload",
    comment := "Payload is used to serialize/deserialize data that is passed to/from activity/workflow implementations that are language agnostic.",
    fields := [
      { name := "metadata", type := "map<string,bytes>", number := 1,
        comment := "Metadata contains additional context information for this payload." },
      { name := "data", type := "bytes", number := 2,
        comment := "Serialized data." }],
    sourceFile := "temporal/api/common/v1/message.proto" }
  let msgs := reg.messages
  let msgs := dinsert msgs "Timestamp" timestampMsg
  let msgs := dinsert msgs "google.protobuf.Timestamp" timestampMsg
  let msgs := dinsert msgs "Duration" durationMsg
  let msgs := dinsert msgs "google.protobuf.Duration" durationMsg
  let msgs := dinsert msgs "Any" anyMsg
  let msgs := dinsert msgs "google.protobuf.Any" anyMsg
  let msgs := dinsert msgs "Payload" payloadMsg
  let msgs := dinsert msgs "temporal.api.common.v1.Payload" payloadMsg
  let pkgs := reg.packages
  let pkgs := dinsert pkgs "google/protobuf/timestamp.proto" "google.protobuf"
  let pkgs := dinsert pkgs "google/protobuf/duration.proto" "google.protobuf"
  let pkgs := dinsert pkgs "google/protobuf/any.proto" "google.protobuf"
  let pkgs := dinsert pkgs "temporal/api/common/v1/message.proto" "temporal.api.common.v1"
  { reg with messages := msgs, packages := pkgs }

/-- Source: the per-dict loop body of _build_qualified_names.  For each
file-to-package binding, every entity tagged with that file is written
into a fresh dict under its package-qualified name and again under its
own key; the fresh dict is then folded back over the original (Python
dict.update). -/
def buildQualifiedDict {α : Type} (packages : SDict String) (entities : SDict α)
    (srcFile : α → String) : SDict α :=
  let qualified := packages.foldl
    (fun acc pk =>
      entities.foldl
        (fun acc2 ev =>
          if srcFile ev.2 = pk.1 then
            dinsert (dinsert acc2 (pk.2 ++ "." ++ ev.1) ev.2) ev.1 ev.2
          else acc2)
        acc)
    []
  dupdate entities qualified

/-- Source: _build_qualified_names, applied to the message and enum
dicts. -/
def buildQualifiedNames (reg : Registry) : Registry :=
  { reg with
    messages := buildQualifiedDict reg.packages reg.messages (fun m => m.sourceFile),
    enums := buildQualifiedDict reg.packages reg.enums (fun e => e.sourceFile) }

/-- Source: parse_repository.  The directory walk is abstracted to an
explicit list of (path, contents) pairs (file-system access is out of the
embedded core); then the well-known types and qualified names. -/
def parseRepository (files : List (String × String)) : Registry :=
  let reg := files.foldl (fun r fc => parseFile r fc.1 fc.2) {}
  buildQualifiedNames (addWellKnownTypes reg)

/-!
## Python value model and json.dumps with indent 2
-/

/-- The Python values that example synthesis produces.  The only float
literal in the source is 123.45; floats are carried as their rendered
text, since their exact bit-level behaviour plays no role here. -/
inductive PyVal where
  | pstr (s : String)
  | pint (n : Int)
  | pbool (b : Bool)
  | pfloat (render : String)
  | plist (xs : List PyVal)
  | pobj (fields : List (String × PyVal))
deriving Repr

/-- json.dumps escaping of one character, covering the value space that
occurs here (ASCII text): quote, backslash and the common controls. -/
def jsonEscapeChar (c : Char) : List Char :=
  if c = dquote then [bslash, dquote]
  else if c = bslash then [bslash, bslash]
  else if c = '\n' then [bslash, 'n']
  else if c = '\t' then [bslash, 't']
  else if c = '\r' then [bslash, 'r']
  else [c]

/-- A JSON string literal as json.dumps renders it. -/
def jsonStr (s : String) : String :=
  String.mk ([dquote] ++ s.toList.foldr (fun c acc => jsonEscapeChar c ++ acc) [] ++ [dquote])

/-- Two spaces per level, the indent-2 prefix. -/
def indentStr (n : Nat) : String := String.mk (List.replicate (2 * n) ' ')

/-- json.dumps(v, indent=2) at nesting level lvl.  The recursion
allowance is structural bookkeeping only: pyDumps passes sizeOf v, which
strictly exceeds the size of every nested value, so the zero branch is
never reached. -/
def pyDumpsVal : Nat → PyVal → Nat → String
  | 0, _, _ => ""
  | fuel + 1, v, lvl =>
    match v with
    | .pstr s => jsonStr s
    | .pint n => toString n
    | .pbool b => if b then "true" else "false"
    | .pfloat r => r
    | .plist [] => "[]"
    | .plist (x :: xs) =>
      "[\n" ++
        pyJoin ",\n"
          ((x :: xs).map (fun y => indentStr (lvl + 1) ++ pyDumpsVal fuel y (lvl + 1))) ++
        "\n" ++ indentStr lvl ++ "]"
    | .pobj [] => "\x7b\x7d"
    | .pobj (q :: qs) =>
      "\x7b\n" ++
        pyJoin ",\n"
          ((q :: qs).map (fun pr =>
            indentStr (lvl + 1) ++ jsonStr pr.1 ++ ": " ++ pyDumpsVal fuel pr.2 (lvl + 1))) ++
        "\n" ++ indentStr lvl ++ "\x7d"

/-- json.dumps(v, indent=2).  json.dumps is total on the acyclic values
that arise here; the allowance argument makes the recursion structural
and the result agrees with json.dumps whenever it exceeds the nesting
depth of the value (one unit per level), which every caller below
arranges. -/
def pyDumps (fuel : Nat) (v : PyVal) : String := pyDumpsVal fuel v 0

/-- html.escape of one character (quote=True default): ampersand,
angle brackets, double and single quotes. -/
def htmlEscapeChar (c : Char) : String :=
  if c = '&' then "&amp;"
  else if c = '<' then "&lt;"
  else if c = '>' then "&gt;"
  else if c = dquote then "&quot;"
  else if c = squoteChar then "&#x27;"
  else String.singleton c

/-- html.escape. -/
def htmlEscape (s : String) : String :=
  s.toList.foldl (fun acc c => acc ++ htmlEscapeChar c) ""

/-!
## The documentation generator environment
-/

/-- The state of HTMLDocumentationGenerator: the parsed registry together
with the two file-system touch points, abstracted as the spec directs:
fileHasMessage answers the on-disk probe of _get_type_package (whether
the file on disk contains a message declaration of that simple name; a
missing file answers false, matching the caught FileNotFoundError), and
fs serves template files (none models a missing asset). -/
structure GenEnv where
  reg : Registry
  fileHasMessage : String → String → Bool
  fs : String → Option String

/-- Source: the main-packages set computed in _collect_referenced_types
and _is_external_type: the packages of files whose path contains the
substring cloudservice.  Modelled as a list used only for membership. -/
def mainPackages (env : GenEnv) : List String :=
  env.reg.packages.foldl
    (fun acc pk => if strContains pk.1 "cloudservice" then acc ++ [pk.2] else acc) []

/-- Python type_name.split(dot)[-1]. -/
def lastSeg (t : String) : String := (splitOnChar '.' t).getLastD ""

/-- Source: _resolve_type_reference. -/
def resolveTypeReference (env : GenEnv) (t : String) : Option ProtoMessage :=
  match dlookup env.reg.messages t with
  | some m => some m
  | none => dlookup env.reg.messages (lastSeg t)

/-- Source: _resolve_enum_reference. -/
def resolveEnumReference (env : GenEnv) (t : String) : Option ProtoEnum :=
  match dlookup env.reg.enums t with
  | some e => some e
  | none => dlookup env.reg.enums (lastSeg t)

/-- The scalar types of _should_expand_type. -/
def scalarTypes : List String := ["string", "int32", "int64", "bool", "double", "float", "bytes"]

/-- The well-known allow-list of _should_expand_type and
_is_type_relevant. -/
def allowedGoogleTypes : List String :=
  ["google.protobuf.Timestamp", "google.protobuf.Duration", "google.protobuf.Any"]

/-- The temporal common allow-list. -/
def allowedCommonTypes : List String := ["temporal.api.common.v1.Payload"]

/-- Source: _should_expand_type. -/
def shouldExpandType (env : GenEnv) (t : String) : Bool :=
  if scalarTypes.contains t then false
  else if pyStartsWith t "google.protobuf." then allowedGoogleTypes.contains t
  else if pyStartsWith t "temporal.api.common." then allowedCommonTypes.contains t
  else (resolveTypeReference env t).isSome || (resolveEnumReference env t).isSome

/-- Source: _is_type_relevant, with its checks in source order. -/
def isTypeRelevant (t : String) : Bool :=
  let excludedTypes : List String :=
    ["google.protobuf.Empty", "google.protobuf.StringValue",
     "google.protobuf.Int64Value", "google.protobuf.BoolValue"]
  if excludedTypes.contains t then false
  else if pyStartsWith t "temporal.api.enums." then false
  else if pyStartsWith t "temporal.api.common." then allowedCommonTypes.contains t
  else if pyStartsWith t "google.protobuf." then allowedGoogleTypes.contains t
  else
    let simpleName := pyLower (lastSeg t)
    let excludedSimple : List String :=
      ["status", "state", "error", "metadata", "config", "info", "data", "result"]
    ! excludedSimple.contains simpleName

/-- The file-probing loop at the end of _get_type_package: the first
package whose file is not one of the synthetic well-known paths and whose
on-disk contents declare a message of the simple name. -/
def getTypePackageLoop (env : GenEnv) (simpleName : String) :
    List (String × String) → Option String
  | [] => none
  | (fp, pkg) :: rest =>
    if pyStartsWith fp "google/protobuf/" || pyStartsWith fp "temporal/api/common/" then
      getTypePackageLoop env simpleName rest
    else if env.fileHasMessage fp simpleName then some pkg
    else getTypePackageLoop env simpleName rest

/-- Source: _get_type_package. -/
def getTypePackage (env : GenEnv) (t : String) : Option String :=
  if pyStartsWith t "google.protobuf." then some "google.protobuf"
  else if pyStartsWith t "temporal.api.common." then some "temporal.api.common.v1"
  else if strContains t "." then
    some (pyJoin "." (splitOnChar '.' t).dropLast)
  else getTypePackageLoop env (lastSeg t) env.reg.packages

/-- Source: _get_service_package. -/
def getServicePackage (env : GenEnv) (svc : ProtoService) : Option String :=
  dlookup env.reg.packages svc.sourceFile

/-!
## The Type Reference Graph (_collect_referenced_types)
-/

/-- An entry of the reference mapping: the resolved message or enum. -/
inductive RefEntry where
  | msg (m : ProtoMessage)
  | enum (e : ProtoEnum)
deriving Repr, DecidableEq

/-- The accumulated mapping type-name to (entity, owning package). -/
abbrev RefAcc : Type := SDict (RefEntry × String)

/-- The body of the field loop of collect_from_message, for one field:
a non-deprecated expandable field resolving to a message from a truthy
non-main relevant package is recorded and then recursed into through the
supplied recursion continuation; an enum is recorded without recursion.
The insertion happens before the recursive walk, exactly as in the
source. -/
def collectFieldStep (env : GenEnv) (recurse : ProtoMessage → RefAcc → RefAcc)
    (acc : RefAcc) (f : ProtoField) : RefAcc :=
  if f.isDeprecated then acc
  else
    let baseType := f.type
    if shouldExpandType env baseType then
      match resolveTypeReference env baseType with
      | some rm =>
        match getTypePackage env baseType with
        | some tp =>
          if tp ≠ "" ∧ tp ∉ mainPackages env ∧ isTypeRelevant baseType then
            recurse rm (dinsert acc baseType (RefEntry.msg rm, tp))
          else acc
        | none => acc
      | none =>
        match resolveEnumReference env baseType with
        | some re2 =>
          match getTypePackage env baseType with
          | some tp =>
            if tp ≠ "" ∧ tp ∉ mainPackages env ∧ isTypeRelevant baseType then
              dinsert acc baseType (RefEntry.enum re2, tp)
            else acc
          | none => acc
        | none => acc
    else acc

/-- Source: the closure collect_from_message together with its field
loop.  A message already on the branch-local visited path, or a call
deeper than depth 2, contributes nothing; otherwise its name joins the
visited path and its fields are walked.  The functional visited argument
is exactly the Python visited.copy() discipline: every recursive call
receives the parent branch path, so siblings never suppress each other.
A non-deprecated expandable field resolving to a message from a truthy
non-main relevant package is recorded and recursed into at depth plus
one; an enum is recorded without recursion.  The structural recursion
allowance only serves the termination checker: collectReferencedTypes
passes allowance 3 at depth 0, each level consumes one unit, so the
allowance reaches zero exactly when depth reaches 3, where the depth
guard returns the accumulator unchanged anyway; the two stopping rules
coincide on every reachable call. -/
def collectFromMessage (env : GenEnv) : Nat → ProtoMessage → List String → Nat →
    RefAcc → RefAcc
  | 0, _, _, _, acc => acc
  | fuel + 1, message, visited, depth, acc =>
    if message.name ∈ visited ∨ depth > 2 then acc
    else
      message.fields.foldl
        (collectFieldStep env
          (fun rm acc3 => collectFromMessage env fuel rm (message.name :: visited) (depth + 1) acc3))
        acc

/-- One seed of the traversal: a method input or output type that
resolves to a message (the source also builds a direct_types set here,
which it never reads afterwards; that dead set is not modelled). -/
def collectSeed (env : GenEnv) (acc : RefAcc) (tname : String) : RefAcc :=
  if tname ≠ "" then
    match dlookup env.reg.messages tname with
    | some im => collectFromMessage env 3 im [] 0 acc
    | none => acc
  else acc

/-- Source: _collect_referenced_types.  The memoised cache only avoids
recomputation inside one generator lifetime and is transparent to the
result. -/
def collectReferencedTypes (env : GenEnv) : RefAcc :=
  env.reg.services.foldl
    (fun acc sv =>
      sv.2.methods.foldl
        (fun acc2 m => collectSeed env (collectSeed env acc2 m.inputType) m.outputType)
        acc)
    []

/-!
## Example value synthesis (_get_example_value, _get_nested_example_value,
_generate_example_json)

The two source methods recurse into each other without any bound, so the
Python functions diverge on cyclic message graphs; the embedding adds an
explicit recursion allowance, with none standing for a computation that
would exceed it.  On inputs where the source terminates, any sufficient
allowance computes its value.
-/

/-- The exact scalar default table of _get_example_value. -/
def scalarExamples : SDict PyVal :=
  [("string", .pstr "example_string"), ("int32", .pint 123), ("int64", .pint 123456789),
   ("bool", .pbool true), ("double", .pfloat "123.45"), ("float", .pfloat "123.45"),
   ("bytes", .pstr "base64_encoded_data")]

/-- Source: _get_example_value, with its branch order: scalar table on
the lowercased last type segment, the timestamp substring, the three
field-name heuristics, nested synthesis for expandable types (the body of
_get_nested_example_value inlined: the first three fields of the resolved
message, deprecated ones dropped, each valued recursively, collected into
a dict), then the generic placeholder.  The helpers nestedExampleFields
and getNestedExampleValue below restate the inlined part one to one. -/
def getExampleValue (env : GenEnv) : Nat → ProtoField → Option PyVal
  | fuel, f =>
    let baseType := pyLower (lastSeg f.type)
    match dlookup scalarExamples baseType with
    | some v => some v
    | none =>
      if strContains baseType "timestamp" then some (.pstr "2023-12-01T12:00:00Z")
      else if strEndsWith f.name "_id" then some (.pstr "unique_identifier_123")
      else if strContains (pyLower f.name) "email" then some (.pstr "user@example.com")
      else if strContains (pyLower f.name) "name" then some (.pstr "example_name")
      else if shouldExpandType env f.type then
        match fuel with
        | 0 => none
        | fuel2 + 1 =>
          match resolveTypeReference env f.type with
          | some rm =>
            ((rm.fields.take 3).foldl
              (fun acc nf =>
                match acc with
                | none => none
                | some prs =>
                  if nf.isDeprecated then some prs
                  else
                    match getExampleValue env fuel2 nf with
                    | some v => some (prs ++ [(nf.name, v)])
                    | none => none)
              (some [])).map
              (fun prs => PyVal.pobj (prs.foldl (fun d q => dinsert d q.1 q.2) []))
          | none => some (.pstr ("example_" ++ pyLower (lastSeg f.type)))
      else some (.pstr ("example_" ++ f.name))

/-- The field loop of _get_nested_example_value, as a named function. -/
def nestedExampleFields (env : GenEnv) (fuel : Nat) (fields : List ProtoField) :
    Option (List (String × PyVal)) :=
  fields.foldl
    (fun acc nf =>
      match acc with
      | none => none
      | some prs =>
        if nf.isDeprecated then some prs
        else
          match getExampleValue env fuel nf with
          | some v => some (prs ++ [(nf.name, v)])
          | none => none)
    (some [])

/-- Source: _get_nested_example_value: the first three fields of the
resolved message (take three, then drop the deprecated ones), each valued
by _get_example_value, collected into a dict; an unresolvable type gives
the lowercased placeholder. -/
def getNestedExampleValue (env : GenEnv) (fuel : Nat) (ftype : String) : Option PyVal :=
  match resolveTypeReference env ftype with
  | some rm =>
    (nestedExampleFields env fuel (rm.fields.take 3)).map
      (fun prs => PyVal.pobj (prs.foldl (fun d q => dinsert d q.1 q.2) []))
  | none => some (.pstr ("example_" ++ pyLower (lastSeg ftype)))

/-- The field loop of _generate_example_json: deprecated fields are
skipped, repeated fields become one-element arrays. -/
def exampleEntries (env : GenEnv) (fuel : Nat) :
    List ProtoField → Option (List (String × PyVal))
  | [] => some []
  | f :: rest =>
    if f.isDeprecated then exampleEntries env fuel rest
    else do
      let v ← getExampleValue env fuel f
      let vs ← exampleEntries env fuel rest
      pure ((if f.label = "repeated" then (f.name, PyVal.plist [v]) else (f.name, v)) :: vs)

/-- Source: _generate_example_json. -/
def generateExampleJson (env : GenEnv) (fuel : Nat) (message : ProtoMessage) :
    Option String := do
  let prs ← exampleEntries env fuel message.fields
  pure (pyDumps (fuel + 3) (.pobj (prs.foldl (fun d p => dinsert d p.1 p.2) [])))

/-!
## Rendering helpers
-/

/-- Stable ascending insertion by integer value: the Python
sorted(items, key=lambda x: x[1]). -/
def insertByVal (p : String × Nat) : List (String × Nat) → List (String × Nat)
  | [] => [p]
  | q :: rest => if q.2 < p.2 then q :: insertByVal p rest else p :: q :: rest

/-- Python sorted by the numeric second component (stable, ascending). -/
def sortByVal (l : List (String × Nat)) : List (String × Nat) :=
  l.foldr insertByVal []

/-- Stable ascending insertion by a string key. -/
def insertByKey {α : Type} (key : α → String) (p : α) : List α → List α
  | [] => [p]
  | q :: rest => if strLtB (key q) (key p) then q :: insertByKey key p rest else p :: q :: rest

/-- Python list.sort with a string key (stable, ascending). -/
def sortByKey {α : Type} (key : α → String) (l : List α) : List α :=
  l.foldr (insertByKey key) []

/-- Source: _get_fallback_template (braces of the substitution points are
written as character escapes). -/
def getFallbackTemplate (templateName : String) : String :=
  if templateName = "html_head.html" then
    "<!DOCTYPE html><html><head><meta charset=\"UTF-8\"><title>\x7btitle\x7d</title></head><body><div class=\"container\">"
  else if templateName = "html_footer.html" then
    "</div><script>\x7bjavascript\x7d</script></body></html>"
  else if templateName = "scripts.js" then
    "// Fallback JavaScript"
  else ""

/-- Source: _load_template; the file system is the environment parameter
and a missing asset (FileNotFoundError) falls back. -/
def loadTemplate (env : GenEnv) (templateName : String) : String :=
  match env.fs templateName with
  | some content => content
  | none => getFallbackTemplate templateName

/-- Python str.format with one named substitution point, as the two
templates use it: the braced key is replaced by the value. -/
def pyFormat (tpl : String) (key value : String) : String :=
  pyReplace tpl ("\x7b" ++ key ++ "\x7d") value

/-- Source: _is_referenced_type. -/
def isReferencedType (env : GenEnv) (t : String) : Bool :=
  (dlookup (collectReferencedTypes env) t).isSome

/-- Source: _is_external_type (the Python return value is the truthiness
of type_package and its absence from the main packages). -/
def isExternalType (env : GenEnv) (t : String) : Bool :=
  match getTypePackage env t with
  | some p => p ≠ "" && ! (mainPackages env).contains p
  | none => false

/-- The display vocabulary of _format_type. -/
def typeMapping : SDict String :=
  [("string", "string"), ("int32", "integer"), ("int64", "integer"), ("bool", "boolean"),
   ("double", "number"), ("float", "number"), ("bytes", "string (base64)")]

/-- Source: _format_type. -/
def formatType (env : GenEnv) (protoType : String) (createLinks : Bool) : String :=
  let baseType := pyLower (lastSeg protoType)
  let formatted := (dlookup typeMapping baseType).getD protoType
  if createLinks && isExternalType env protoType then
    let simpleName := lastSeg protoType
    if isReferencedType env protoType then
      "<a href=\"#ref-" ++ pyLower simpleName ++ "\">" ++ formatted ++ "</a>"
    else formatted
  else formatted

/-!
## Per-message and per-method rendering
-/

/-- One parameter-table row of _generate_html_message_docs. -/
def messageFieldRow (env : GenEnv) (f : ProtoField) : List String :=
  let required := if f.label = "required" then "Yes" else "No"
  let fieldType :=
    if f.label = "repeated" then
      "Array&lt;" ++ formatType env f.type true ++ "&gt;"
    else formatType env f.type true
  let description := htmlEscape (if f.comment = "" then "No description available" else f.comment)
  ["<tr>",
   "<td><code>" ++ htmlEscape f.name ++ "</code></td>",
   "<td>" ++ fieldType ++ "</td>",
   "<td>" ++ required ++ "</td>",
   "<td>" ++ description ++ "</td>",
   "</tr>"]

/-- Source: _generate_html_message_docs. -/
def generateHtmlMessageDocs (env : GenEnv) (message : ProtoMessage) (isRequest : Bool) :
    List String :=
  if message.fields.isEmpty then
    [if isRequest then "<p>No parameters required.</p>" else "<p>Empty response.</p>"]
  else
    ["<table>", "<thead>", "<tr>", "<th>Parameter</th>", "<th>Type</th>", "<th>Required</th>",
     "<th>Description</th>", "</tr>", "</thead>", "<tbody>"] ++
    (message.fields.foldl
      (fun acc f => if f.isDeprecated then acc else acc ++ messageFieldRow env f) []) ++
    ["</tbody>", "</table>"]

/-- Source: _generate_curl_example, the parts list: the command word, the
verb flag for non-GET verbs, the quoted placeholder URL, the two headers,
and the quoted JSON body for POST, PUT and PATCH when the input message
resolves with fields (the body needs the example JSON, hence the
recursion allowance; none propagates exhaustion). -/
def curlParts (env : GenEnv) (fuel : Nat) (m : ProtoMethod) : Option (List String) := do
  let parts := ["curl"]
  let parts := if m.httpMethod ≠ "" ∧ pyUpper m.httpMethod ≠ "GET" then
      parts ++ ["-X " ++ pyUpper m.httpMethod]
    else parts
  let parts := parts ++ ["\"https://saas-api.tmprl.cloud" ++ (m.httpPath ++ "\"")]
  let parts := parts ++
    ["-H \"Content-Type: application/json\"", "-H \"Authorization: Bearer YOUR_API_KEY\""]
  if m.httpMethod ∈ ["POST", "PUT", "PATCH"] ∧ m.inputType ≠ "" then
    match dlookup env.reg.messages m.inputType with
    | some im =>
      if ¬ im.fields.isEmpty then do
        let exampleBody ← generateExampleJson env fuel im
        let escapedBody := pyReplace exampleBody (String.singleton squoteChar)
          (String.singleton squoteChar ++ String.singleton dquote ++
           String.singleton squoteChar ++ String.singleton dquote ++
           String.singleton squoteChar)
        pure (parts ++
          ["-d " ++ (String.singleton squoteChar ++ (escapedBody ++ String.singleton squoteChar))])
      else pure parts
    | none => pure parts
  else pure parts

/-- The command string _generate_curl_example assembles for the copy
attribute: one space-joined line for at most three parts, otherwise the
backslash-continued multi-line form. -/
def curlCommand (parts : List String) : String :=
  if parts.length ≤ 3 then pyJoin " " parts
  else
    pyJoin "\n"
      ((parts.take 1).map (fun p => p ++ " " ++ String.singleton bslash) ++
       ((parts.drop 1).dropLast.map
         (fun p => "  " ++ p ++ " " ++ String.singleton bslash)) ++
       (parts.drop 1).getLast?.toList.map (fun p => "  " ++ p))

/-- The displayed code lines of _generate_curl_example (the same branch,
emitted line by line). -/
def curlDisplayLines (parts : List String) : List String :=
  if parts.length ≤ 3 then [htmlEscape (pyJoin " " parts)]
  else
    (parts.take 1).map (fun p => htmlEscape (p ++ " " ++ String.singleton bslash)) ++
    ((parts.drop 1).dropLast.map
      (fun p => htmlEscape ("  " ++ p ++ " " ++ String.singleton bslash))) ++
    (parts.drop 1).getLast?.toList.map (fun p => htmlEscape ("  " ++ p))

/-- Source: _generate_curl_example. -/
def generateCurlExample (env : GenEnv) (fuel : Nat) (m : ProtoMethod) :
    Option (List String) := do
  let parts ← curlParts env fuel m
  let methodId := pyLower m.name
  pure (["<div class=\"code-block-container\">",
    "<button class=\"copy-button\" data-copy-target=\"curl-code-" ++ methodId ++
      "\" title=\"Copy curl command\">Copy</button>",
    "<pre><code id=\"curl-code-" ++ methodId ++ "\" data-curl-command=\"" ++
      htmlEscape (curlCommand parts) ++ "\">"] ++
    curlDisplayLines parts ++
    ["</code></pre>", "</div>"])

/-- The Request section of _generate_html_method_docs: present exactly
when the input type resolves, silently absent otherwise. -/
def requestSection (env : GenEnv) (m : ProtoMethod) : List String :=
  match dlookup env.reg.messages m.inputType with
  | some im => ["<h4>Request</h4>"] ++ generateHtmlMessageDocs env im true
  | none => []

/-- The Response section of _generate_html_method_docs: present exactly
when the output type resolves. -/
def responseSection (env : GenEnv) (m : ProtoMethod) : List String :=
  match dlookup env.reg.messages m.outputType with
  | some om => ["<h4>Response</h4>"] ++ generateHtmlMessageDocs env om false
  | none => []

/-- The example-request part of the raw HTTP tab: the body appears only
for POST, PUT and PATCH with a truthy input type resolving to a message
with fields. -/
def httpPaneBody (env : GenEnv) (fuel : Nat) (m : ProtoMethod) : Option (List String) :=
  if m.httpMethod ∈ ["POST", "PUT", "PATCH"] ∧ m.inputType ≠ "" then
    match dlookup env.reg.messages m.inputType with
    | some im =>
      if ¬ im.fields.isEmpty then
        (generateExampleJson env fuel im).map (fun b => [htmlEscape b])
      else some []
    | none => some []
  else some []

/-- Source: _generate_html_example, with its tab-navigation logic: the
curl and HTTP tabs exist when the method has both verb and path, the
response tab when the output type name is truthy; the response pane is
rendered only when that name also resolves, and it is the active pane
exactly when there is no HTTP tab. -/
def generateHtmlExample (env : GenEnv) (fuel : Nat) (m : ProtoMethod) :
    Option (List String) := do
  let methodId := pyLower m.name
  let hasHttp := m.httpMethod ≠ "" ∧ m.httpPath ≠ ""
  let hasResponse := m.outputType ≠ ""
  let curlBlock ← if hasHttp then generateCurlExample env fuel m else pure []
  let httpBody ← if hasHttp then httpPaneBody env fuel m else pure []
  let respBlock ← (do
    if hasResponse then
      match dlookup env.reg.messages m.outputType with
      | some om => do
        let exampleResponse ← generateExampleJson env fuel om
        pure (["<div class=\"tab-pane " ++ (if hasHttp then "" else "active") ++
            "\" id=\"response-" ++ methodId ++ "\">",
          "<pre><code>", htmlEscape exampleResponse, "</code></pre>", "</div>"]
          : List String)
      | none => pure []
    else pure [])
  pure (["<div class=\"example-section\">", "<h4>Example</h4>", "<div class=\"tab-container\">",
    "<div class=\"tab-nav\">"] ++
    (if hasHttp then
      ["<button class=\"tab-button active\" data-tab=\"curl-" ++ methodId ++ "\">curl</button>",
       "<button class=\"tab-button\" data-tab=\"http-" ++ methodId ++ "\">HTTP</button>"]
     else []) ++
    (if hasResponse then
      ["<button class=\"tab-button " ++ (if hasHttp then "" else "active") ++
        "\" data-tab=\"response-" ++ methodId ++ "\">Response</button>"]
     else []) ++
    ["</div>", "<div class=\"tab-content\">"] ++
    (if hasHttp then
      ["<div class=\"tab-pane active\" id=\"curl-" ++ methodId ++ "\">"] ++ curlBlock ++
      ["</div>"]
     else []) ++
    (if hasHttp then
      ["<div class=\"tab-pane\" id=\"http-" ++ methodId ++ "\">", "<pre><code>",
       htmlEscape m.httpMethod ++ " " ++ htmlEscape m.httpPath,
       "Content-Type: application/json", "Authorization: Bearer YOUR_API_KEY", ""] ++
      httpBody ++ ["</code></pre>", "</div>"]
     else []) ++
    respBlock ++
    ["</div>", "</div>", "</div>"])

/-- Source: _generate_html_method_docs. -/
def generateHtmlMethodDocs (env : GenEnv) (fuel : Nat) (m : ProtoMethod)
    (service : ProtoService) : Option (List String) := do
  let methodAnchor := pyLower m.name
  let headerLines := ["<div class=\"method-header\">",
    "<h3 id=\"" ++ methodAnchor ++ "\">" ++ htmlEscape m.name ++ "</h3>",
    "<button class=\"link-button\" data-anchor=\"" ++ methodAnchor ++
      "\" title=\"Copy link to this method\">#</button>",
    "</div>"]
  let packageLines := match getServicePackage env service with
    | some p =>
      if p ≠ "" then ["<p><em>From package:</em> <code>" ++ p ++ "</code></p>"] else []
    | none => []
  let commentLines := if m.comment ≠ "" then ["<p>" ++ htmlEscape m.comment ++ "</p>"] else []
  let endpointLines :=
    if m.httpMethod ≠ "" ∧ m.httpPath ≠ "" then
      ["<div class=\"method-endpoint\">",
       "<code>" ++ htmlEscape m.httpMethod ++ " " ++ htmlEscape m.httpPath ++ "</code>",
       "</div>"]
    else []
  let exampleLines ← generateHtmlExample env fuel m
  pure (headerLines ++ packageLines ++ commentLines ++ endpointLines ++
    requestSection env m ++ responseSection env m ++ exampleLines ++
    ["<div class=\"method-divider\"></div>"])

/-- Source: _generate_html_service_docs. -/
def generateHtmlServiceDocs (env : GenEnv) (fuel : Nat) (service : ProtoService) :
    Option (List String) := do
  let headLines := ["<div class=\"content-section\">",
    "<h2 id=\"" ++ pyLower service.name ++ "\">" ++ htmlEscape service.name ++ "</h2>"] ++
    (if service.comment ≠ "" then ["<p>" ++ htmlEscape service.comment ++ "</p>"] else [])
  let methodLines ← service.methods.foldlM
    (fun acc m => do
      let lines ← generateHtmlMethodDocs env fuel m service
      pure (acc ++ lines))
    ([] : List String)
  pure (headLines ++ methodLines ++ ["</div>"])

/-!
## Navigation sidebar and Types appendix
-/

/-- The flat, simple-name-deduplicated, alphabetically sorted list of
referenced types that both the sidebar and the navigation use: the first
occurrence of each simple name in dict order is kept, then the list is
sorted by simple name. -/
def dedupBySimpleName (entries : List (String × (RefEntry × String))) :
    List (String × RefEntry × String) :=
  (entries.foldl
    (fun (st : List String × List (String × RefEntry × String)) e =>
      let simpleName := lastSeg e.1
      if st.1.contains simpleName then st
      else (st.1 ++ [simpleName], st.2 ++ [(e.1, e.2.1, e.2.2)]))
    ([], [])).2

/-- Source: _generate_sidebar. -/
def generateSidebarLines (env : GenEnv) : List String :=
  let head := ["<nav class=\"sidebar\">", "<div class=\"sidebar-content\">",
    "<div class=\"search-container\">",
    "<input type=\"text\" class=\"search-input\" id=\"searchInput\" placeholder=\"Search services and types...\">",
    "<div class=\"search-results\" id=\"searchResults\"></div>",
    "</div>", "<h2>Services</h2>", "<ul class=\"nav-list\">"]
  let svcLines := env.reg.services.foldl
    (fun acc sv =>
      acc ++ ["<li class=\"nav-item\">",
        "<a href=\"#" ++ pyLower sv.2.name ++ "\" class=\"nav-link\">" ++ sv.2.name ++ "</a>",
        "<ul class=\"nav-sublist\">"] ++
      (sv.2.methods.foldl
        (fun acc2 m =>
          acc2 ++ ["<li>",
            "<a href=\"#" ++ pyLower m.name ++ "\" class=\"nav-sublink\">" ++ m.name ++ "</a>",
            "</li>"]) []) ++
      ["</ul>", "</li>"])
    []
  let referencedTypes := collectReferencedTypes env
  let typeLines :=
    if referencedTypes.isEmpty then []
    else
      let allTypes := sortByKey (fun e => lastSeg e.1) (dedupBySimpleName referencedTypes)
      ["<h2>Types</h2>", "<ul class=\"nav-list\">"] ++
      (allTypes.foldl
        (fun acc e =>
          acc ++ ["<li>",
            "<a href=\"#ref-" ++ pyLower (lastSeg e.1) ++ "\" class=\"nav-sublink\">" ++
              lastSeg e.1 ++ "</a>",
            "</li>"]) []) ++
      ["</ul>"]
  head ++ svcLines ++ ["</ul>"] ++ typeLines ++ ["</div>", "</nav>"]

/-- Source: _generate_sidebar returns the newline-joined lines as one
string. -/
def generateSidebar (env : GenEnv) : String := pyJoin "\n" (generateSidebarLines env)

/-- The grouping-by-package step of _generate_types_section: a dict
package to list of (type name, entity), in first-seen package order,
preserving the dict order within each package. -/
def groupByPackage (entries : List (String × (RefEntry × String))) :
    SDict (List (String × RefEntry)) :=
  entries.foldl
    (fun acc e =>
      match dlookup acc e.2.2 with
      | some l => dinsert acc e.2.2 (l ++ [(e.1, e.2.1)])
      | none => dinsert acc e.2.2 [(e.1, e.2.1)])
    []

/-- The enum-value table rows of _generate_flat_types_list: one row per
value, iterated in ascending numeric order via Python sorted on the dict
items. -/
def enumValueRows (e : ProtoEnum) : List String :=
  (sortByVal e.values).foldl
    (fun acc v =>
      acc ++ ["<tr>", "<td><code>" ++ htmlEscape v.1 ++ "</code></td>",
        "<td>" ++ toString v.2 ++ "</td>", "</tr>"])
    []

/-- One type block of _generate_flat_types_list. -/
def flatTypeBlock (env : GenEnv) (typeName : String) (typeObj : RefEntry) (pkg : String) :
    List String :=
  let simpleName := lastSeg typeName
  let typeAnchor := "ref-" ++ pyLower simpleName
  let head := ["<div class=\"type-header\">",
    "<h4 id=\"" ++ typeAnchor ++ "\">" ++ htmlEscape simpleName ++ "</h4>",
    "<button class=\"link-button\" data-anchor=\"" ++ typeAnchor ++
      "\" title=\"Copy link to this type\">#</button>",
    "</div>",
    "<p><em>From package:</em> <code>" ++ pkg ++ "</code></p>"]
  let commentLines := match typeObj with
    | .msg m => if m.comment ≠ "" then ["<p>" ++ htmlEscape m.comment ++ "</p>"] else []
    | .enum e => if e.comment ≠ "" then ["<p>" ++ htmlEscape e.comment ++ "</p>"] else []
  let body := match typeObj with
    | .msg m =>
      if ¬ m.fields.isEmpty then
        ["<table>", "<thead>", "<tr>", "<th>Field</th>", "<th>Type</th>",
         "<th>Description</th>", "</tr>", "</thead>", "<tbody>"] ++
        (m.fields.foldl
          (fun acc f =>
            if f.isDeprecated then acc
            else
              let fieldType0 := formatType env f.type true
              let fieldType := if f.label = "repeated" then
                  "Array&lt;" ++ fieldType0 ++ "&gt;"
                else fieldType0
              acc ++ ["<tr>", "<td><code>" ++ htmlEscape f.name ++ "</code></td>",
                "<td>" ++ fieldType ++ "</td>",
                "<td>" ++ htmlEscape (if f.comment = "" then "No description available"
                  else f.comment) ++ "</td>",
                "</tr>"])
          []) ++
        ["</tbody>", "</table>"]
      else ["<p>No fields defined.</p>"]
    | .enum e =>
      if ¬ e.values.isEmpty then
        ["<p><strong>Enum Values:</strong></p>", "<table>", "<thead>", "<tr>", "<th>Name</th>",
         "<th>Value</th>", "</tr>", "</thead>", "<tbody>"] ++
        enumValueRows e ++
        ["</tbody>", "</table>"]
      else ["<p>No enum values defined.</p>"]
  head ++ commentLines ++ body ++ ["<div style=\"margin-bottom: 2rem;\"></div>"]

/-- Source: _generate_flat_types_list: flatten the per-package groups in
group order, deduplicate by first-seen simple name, sort by simple name,
and render each block. -/
def generateFlatTypesList (env : GenEnv) (packages : SDict (List (String × RefEntry))) :
    List String :=
  let flat := packages.foldl
    (fun acc pk => acc ++ pk.2.map (fun te => (te.1, te.2, pk.1)))
    ([] : List (String × RefEntry × String))
  let deduped := (flat.foldl
    (fun (st : List String × List (String × RefEntry × String)) e =>
      let simpleName := lastSeg e.1
      if st.1.contains simpleName then st
      else (st.1 ++ [simpleName], st.2 ++ [e]))
    ([], [])).2
  let allTypes := sortByKey (fun e => lastSeg e.1) deduped
  allTypes.foldl (fun acc e => acc ++ flatTypeBlock env e.1 e.2.1 e.2.2) []

/-- Source: _generate_types_section. -/
def generateTypesSection (env : GenEnv) : List String :=
  let referencedTypes := collectReferencedTypes env
  if referencedTypes.isEmpty then []
  else
    ["<div class=\"content-section\">", "<h2 id=\"types\">Types</h2>",
     "<p>This section documents all types from external packages used in the CloudService API.</p>"] ++
    generateFlatTypesList env (groupByPackage referencedTypes) ++
    ["</div>"]

/-!
## The top-level document (generate_html)
-/

/-- Source: generate_html, as the list of strings the source joins with
newlines at the end (the sidebar is one pre-joined element, service and
types lines are spliced in). -/
def generateHtmlList (env : GenEnv) (fuel : Nat) : Option (List String) := do
  let htmlHead := loadTemplate env "html_head.html"
  let htmlFooter := loadTemplate env "html_footer.html"
  let javascript := loadTemplate env "scripts.js"
  let svcLines ← env.reg.services.foldlM
    (fun acc sv => do
      let lines ← generateHtmlServiceDocs env fuel sv.2
      pure (acc ++ lines))
    ([] : List String)
  pure ([pyFormat htmlHead "title" "Temporal Cloud Ops API Reference",
    generateSidebar env,
    "<main class=\"main-content\">",
    "<div class=\"content-section\">",
    "<h1>Temporal Cloud Ops API Reference</h1>",
    "</div>"] ++
    svcLines ++
    generateTypesSection env ++
    [pyFormat htmlFooter "javascript" javascript])

/-- Source: generate_html. -/
def generateHtml (env : GenEnv) (fuel : Nat) : Option String :=
  (generateHtmlList env fuel).map (pyJoin "\n")

/-!
## Substring and join lemmas used to locate rendered fragments
-/

/-- pat occurs as a contiguous substring of s. -/
def StrIn (pat s : String) : Prop := ∃ a b, s = a ++ (pat ++ b)

/-!
## Concrete inputs used by the claim instances
-/

/-- One attempt of the message-declaration probe regex used inside
_get_type_package (message, whitespace, the escaped simple name, optional
whitespace, an opening brace). -/
def matchMessageDeclAt (name : String) (l : List Char) : Bool :=
  (do
    let r ← litStr "message" l
    let r ← skipWs1 r
    let r ← litStr name r
    let r2 := skipWs r
    match r2 with
    | c :: _ => if c = openBrace then some () else none
    | [] => none).isSome

/-- re.search of the message-declaration probe over file contents. -/
def hasMessageDeclAux (name : String) : Nat → List Char → Bool
  | 0, _ => false
  | fuel + 1, l =>
    if matchMessageDeclAt name l then true
    else
      match l with
      | [] => false
      | _ :: t => hasMessageDeclAux name fuel t

/-- Whether file contents declare a message of the given simple name, the
on-disk probe of _get_type_package applied to known contents. -/
def hasMessageDecl (content : String) (name : String) : Bool :=
  hasMessageDeclAux name content.toList.length content.toList

/-- The Scenario 1 schema text of the specification. -/
def scenario1Text : String :=
  "package demo;\n" ++
  "service Greeter \x7b\n" ++
  "  rpc SayHello(HelloRequest) returns (HelloReply) \x7b\x7d\n" ++
  "\x7d\n" ++
  "message HelloRequest \x7b\n" ++
  "  string name = 1;\n" ++
  "\x7d\n" ++
  "message HelloReply \x7b\n" ++
  "  string message = 1;\n" ++
  "\x7d\n"

/-- The registry parsed from the Scenario 1 file. -/
def scenario1Reg : Registry := parseRepository [("demo.proto", scenario1Text)]

/-- The generator environment for Scenario 1: the on-disk probe answers
from the scenario file itself (the synthetic well-known paths are skipped
before probing), and no template assets exist, so the embedded fallbacks
are used. -/
def scenario1Env : GenEnv :=
  { reg := scenario1Reg,
    fileHasMessage := fun path name =>
      if path = "demo.proto" then hasMessageDecl scenario1Text name else false,
    fs := fun _ => none }

/-- A one-message registry used to exercise qualification: message M from
file f.proto whose package is p. -/
def c2Msg : ProtoMessage := { name := "M", sourceFile := "f.proto" }

/-- The registry holding c2Msg, as ingestion leaves it. -/
def c2Reg : Registry := { messages := [("M", c2Msg)], packages := [("f.proto", "p")] }

/-- Two distinct messages for the rebinding example: a plain key j and a
dotted key q.q.j that collides with what re-qualification writes. -/
def c2bMsgJ : ProtoMessage := { name := "j", sourceFile := "f" }

def c2bMsgQ : ProtoMessage := { name := "q.q.j", sourceFile := "f", comment := "distinct" }

/-- A registry whose dotted message key q.q.j gets rebound by a second
qualification run: the first run adds q.j bound to the j entity, and the
second run qualifies that fresh key into q.q.j, overwriting the original
binding on update. -/
def c2bReg : Registry :=
  { messages := [("j", c2bMsgJ), ("q.q.j", c2bMsgQ)], packages := [("f", "q")] }

/-- Messages of a registry with a reference cycle: the cloudservice
message P has two sibling fields of types A and B; A references B, B
references back A (the cycle) and also C; C references D. -/
def cycMsgP : ProtoMessage :=
  { name := "P", sourceFile := "cloudservice/svc.proto",
    fields := [{ name := "a", type := "A", number := 1 },
               { name := "b", type := "B", number := 2 }] }

def cycMsgA : ProtoMessage :=
  { name := "A", sourceFile := "other/types.proto",
    fields := [{ name := "x", type := "B", number := 1 }] }

def cycMsgB : ProtoMessage :=
  { name := "B", sourceFile := "other/types.proto",
    fields := [{ name := "c", type := "C", number := 1 },
               { name := "y", type := "A", number := 2 }] }

def cycMsgC : ProtoMessage :=
  { name := "C", sourceFile := "other/types.proto",
    fields := [{ name := "d", type := "D", number := 1 }] }

def cycMsgD : ProtoMessage :=
  { name := "D", sourceFile := "other/types.proto",
    fields := [{ name := "e", type := "string", number := 1 }] }

/-- The cyclic registry: one cloudservice service whose method input is P;
the external types live in package other.v1. -/
def cycReg : Registry :=
  { messages := [("P", cycMsgP), ("A", cycMsgA), ("B", cycMsgB), ("C", cycMsgC), ("D", cycMsgD)],
    services := [("Svc",
      { name := "Svc", sourceFile := "cloudservice/svc.proto",
        methods := [{ name := "Get", inputType := "P", outputType := "Missing" }] })],
    packages := [("cloudservice/svc.proto", "cs"), ("other/types.proto", "other.v1")] }

/-- The environment over the cyclic registry; the on-disk probe reports
the declared messages of each file. -/
def cycEnv : GenEnv :=
  { reg := cycReg,
    fileHasMessage := fun fp n =>
      if fp = "other/types.proto" then ["A", "B", "C", "D"].contains n
      else if fp = "cloudservice/svc.proto" then n = "P"
      else false,
    fs := fun _ => none }

/-- Messages used against nested example synthesis: Outer has a
deprecated first field, then a message-typed field, a scalar field and a
fourth field; Mid has one scalar field. -/
def c5MsgOuter : ProtoMessage :=
  { name := "Outer", sourceFile := "other/o.proto",
    fields := [{ name := "dep", type := "string", number := 1, isDeprecated := true },
               { name := "m1", type := "Mid", number := 2 },
               { name := "s", type := "string", number := 3 },
               { name := "extra", type := "string", number := 4 }] }

def c5MsgMid : ProtoMessage :=
  { name := "Mid", sourceFile := "other/o.proto",
    fields := [{ name := "q", type := "int32", number := 1 }] }

/-- The registry and environment for the nested example synthesis

instance. -/

def c5Reg : Registry :=
  { messages := [("Outer", c5MsgOuter), ("Mid", c5MsgMid)],
    packages := [("other/o.proto", "other.v1")] }

def c5Env : GenEnv :=
  { reg := c5Reg, fileHasMessage := fun _ _ => false, fs := fun _ => none }

/-- A field of message type Outer whose name triggers none of the
field-name heuristics. -/
def c5Field : ProtoField := { name := "payload_field", type := "Outer", number := 1 }

/-- A schema file whose rpc body carries an HTTP-binding block with a
post verb, a path, and an ordinary quoted body field-mask. -/
def c6Text : String :=
  "service Widgets \x7b\n" ++
  "  rpc CreateWidget(CreateReq) returns (CreateResp) \x7b\n" ++
  "    option (google.api.http) = \x7b\n" ++
  "      post: \"/v1/widgets\"\n" ++
  "      body: \"widget\"\n" ++
  "    \x7d;\n" ++
  "  \x7d\n" ++
  "\x7d\n"

/-- The services extracted from c6Text. -/
def c6Services : List ProtoService :=
  scanServices "w.proto" (stripLineComments (stripBlockComments c6Text.toList)).length
    (stripLineComments (stripBlockComments c6Text.toList))

/-- A message body exercising the deprecated-marker spellings: the exact
marker, the three spacing variants, and a bracket list with a second
option. -/
def c10Body : String :=
  "message Opts \x7b\n" ++
  "  string a = 1 [deprecated = true];\n" ++
  "  string b = 2 [deprecated=true];\n" ++
  "  string c = 3 [deprecated =true];\n" ++
  "  string d = 4 [json_name = \"dd\", deprecated = true];\n" ++
  "  string e = 5 [DEPRECATED = TRUE];\n" ++
  "\x7d\n"

/-- The messages extracted from c10Body. -/
def c10Messages : List ProtoMessage :=
  scanMessages "m.proto" c10Body.toList.length c10Body.toList

/-- The document line list generated for Scenario 1 with every template
asset missing (fallbacks in use). -/
def scenario1DocList : List String := (generateHtmlList scenario1Env 1).getD []

/-- A small registry for the curl-example instance: one input message
with a field. -/
def c7InMsg : ProtoMessage :=
  { name := "In", sourceFile := "x.proto",
    fields := [{ name := "q", type := "string", number := 1 }] }

def c7Reg : Registry := { messages := [("In", c7InMsg)] }

def c7Env : GenEnv :=
  { reg := c7Reg, fileHasMessage := fun _ _ => false, fs := fun _ => none }

/-- A POST method with an HTTP binding whose input resolves. -/
def c7Method : ProtoMethod :=
  { name := "MakeIt", inputType := "In", outputType := "Out",
    httpMethod := "POST", httpPath := "/v1/in" }

/-- The curl parts assembled for c7Method. -/
def c7Parts : List String := (curlParts c7Env 1 c7Method).getD []

/-- An environment whose registry resolves no message names at all. -/
def c8Env : GenEnv :=
  { reg := {}, fileHasMessage := fun _ _ => false, fs := fun _ => none }

/-- A method whose input and output type names resolve to nothing. -/
def c8Method : ProtoMethod :=
  { name := "Orphan", inputType := "NoSuchIn", outputType := "NoSuchOut" }

def c8Service : ProtoService := { name := "Svc", sourceFile := "s.proto" }

/-- The package invariant of the Reference Graph accumulator: every
recorded entry's owning package avoids the main (cloudservice)
packages. -/
def refInv (env : GenEnv) (acc : RefAcc) : Prop :=
  ∀ k ent pkg, dlookup acc k = some (ent, pkg) → pkg ∉ mainPackages env

/-- The method _parse_services actually produces for the c6Text input:
verb and path recorded, http_body left empty. -/
def c6ExpectedMethod : ProtoMethod :=
  { name := "CreateWidget", inputType := "CreateReq", outputType := "CreateResp",
    httpMethod := "POST", httpPath := "/v1/widgets", httpBody := "" }

def c6ExpectedService : ProtoService :=
  { name := "Widgets", sourceFile := "w.proto", methods := [c6ExpectedMethod] }

/-- An enum whose values are declared out of numeric order. -/
def c9Enum : ProtoEnum :=
  { name := "Color", sourceFile := "e.proto",
    values := [("RED", 2), ("BLUE", 0), ("GREEN", 1)] }

def c9Env : GenEnv :=
  { reg := {}, fileHasMessage := fun _ _ => false, fs := fun _ => none }

/-!
## Theorems
-/

section SDictLemmas

variable {α : Type}

theorem dlookup_map_overwrite (d : SDict α) (k k' : String) (v : α) (hne : k' ≠ k) :
    dlookup (d.map (fun p => if p.1 = k then (k, v) else p)) k' = dlookup d k' := by
  induction d with
  | nil => simp [dlookup]
  | cons p rest ih =>
    by_cases hp : p.1 = k
    · have h1 : ¬ (k = k') := fun h => hne h.symm
      have h2 : ¬ (p.1 = k') := fun h => hne (hp.symm.trans h).symm
      simp [List.map_cons, hp, dlookup, h1, h2, ih]
    · simp [List.map_cons, hp, dlookup, ih]

theorem dlookup_map_overwrite_self (d : SDict α) (k : String) (v : α)
    (hmem : d.any (fun p => p.1 = k) = true) :
    dlookup (d.map (fun p => if p.1 = k then (k, v) else p)) k = some v := by
  induction d with
  | nil => simp at hmem
  | cons p rest ih =>
    by_cases hp : p.1 = k
    · simp [List.map_cons, hp, dlookup]
    · simp only [List.any_cons, Bool.or_eq_true, decide_eq_true_eq] at hmem
      rcases hmem with h | h
      · exact absurd h hp
      · simp only [List.map_cons, hp, if_neg, dlookup]
        simp only [hp, if_false]
        exact ih h

theorem dlookup_append_fresh (d : SDict α) (k k' : String) (v : α)
    (hmem : d.any (fun p => p.1 = k) = false) :
    dlookup (d ++ [(k, v)]) k' = if k' = k then some v else dlookup d k' := by
  induction d with
  | nil =>
    by_cases h : k' = k
    · simp [dlookup, h]
    · have h' : ¬ (k = k') := fun hh => h hh.symm
      simp [dlookup, h, h']
  | cons p rest ih =>
    simp only [List.any_cons, Bool.or_eq_false_iff, decide_eq_false_iff_not] at hmem
    obtain ⟨hp, hrest⟩ := hmem
    simp only [List.cons_append, dlookup]
    by_cases hpk : p.1 = k'
    · have hk : ¬ (k' = k) := fun h => hp (hpk.trans h)
      simp [hpk, hk]
    · simp [hpk, ih hrest]

theorem dlookup_dinsert (d : SDict α) (k k' : String) (v : α) :
    dlookup (dinsert d k v) k' = if k' = k then some v else dlookup d k' := by
  unfold dinsert
  by_cases hmem : d.any (fun p => p.1 = k) = true
  · simp only [hmem, if_true]
    by_cases h : k' = k
    · subst h; simp [dlookup_map_overwrite_self d k' v hmem]
    · simp [h, dlookup_map_overwrite d k k' v h]
  · have hmem' : d.any (fun p => p.1 = k) = false := eq_false_of_ne_true hmem
    simp only [hmem, if_false]
    exact dlookup_append_fresh d k k' v hmem'

theorem dlookup_isSome_dinsert (d : SDict α) (k k' : String) (v : α)
    (h : (dlookup d k').isSome) : (dlookup (dinsert d k v) k').isSome := by
  rw [dlookup_dinsert]
  by_cases hk : k' = k <;> simp [hk, h]

theorem dlookup_isSome_dupdate (q d : SDict α) (k : String)
    (h : (dlookup d k).isSome) : (dlookup (dupdate d q) k).isSome := by
  induction q generalizing d with
  | nil => simpa [dupdate] using h
  | cons p rest ih =>
    simp only [dupdate, List.foldl_cons]
    exact ih (dinsert d p.1 p.2) (dlookup_isSome_dinsert d p.1 k p.2 h)

end SDictLemmas

theorem isMatchAt_cons (c : Char) (rest : List Char) (count : Int) (k : Nat) :
    isMatchAt (c :: rest) count (k + 1) ↔ isMatchAt rest (count + charDelta c) k := by
  unfold isMatchAt
  rw [List.get?_cons_succ, List.take_succ_cons]
  constructor
  · rintro ⟨h1, h2⟩
    refine ⟨h1, ?_⟩
    simp only [braceBal] at h2
    omega
  · rintro ⟨h1, h2⟩
    refine ⟨h1, ?_⟩
    simp only [braceBal]
    omega

theorem isMatchAt_zero (c : Char) (rest : List Char) (count : Int) :
    isMatchAt (c :: rest) count 0 ↔ c = closeBrace ∧ count + charDelta c = 0 := by
  unfold isMatchAt
  rw [List.get?_cons_zero, List.take_succ_cons, List.take_zero]
  simp only [braceBal, Option.some_inj, add_zero]

theorem isMatchAt_ge_length (l : List Char) (count : Int) (k : Nat)
    (h : l.length ≤ k) : ¬ isMatchAt l count k := by
  intro hm
  have := hm.1
  rw [List.get?_eq_none.mpr h] at this
  exact Option.noConfusion this

theorem fmbAux_cons (c : Char) (rest : List Char) (i : Nat) (count : Int) :
    fmbAux (c :: rest) i count =
      if c = openBrace then fmbAux rest (i + 1) (count + 1)
      else if c = closeBrace then
        if count - 1 = 0 then (i : Int) else fmbAux rest (i + 1) (count - 1)
      else fmbAux rest (i + 1) count := rfl

theorem fmbAux_found : ∀ (l : List Char) (i : Nat) (count : Int) (k : Nat),
    isMatchAt l count k → (∀ m, m < k → ¬ isMatchAt l count m) →
    fmbAux l i count = ((i : Int) + k) := by
  intro l
  induction l with
  | nil =>
    intro i count k hk _
    exact absurd hk (isMatchAt_ge_length [] count k (Nat.zero_le k))
  | cons c rest ih =>
    intro i count k hk hmin
    rw [fmbAux_cons]
    by_cases hc : c = openBrace
    · rw [if_pos hc]
      match k with
      | 0 =>
        rw [isMatchAt_zero] at hk
        exact absurd (hc.symm.trans hk.1) (by decide)
      | k' + 1 =>
        rw [isMatchAt_cons] at hk
        have hmin' : ∀ m, m < k' → ¬ isMatchAt rest (count + charDelta c) m := by
          intro m hm hmm
          exact hmin (m + 1) (Nat.succ_lt_succ hm) ((isMatchAt_cons c rest count m).mpr hmm)
        have hdelta : charDelta c = 1 := by unfold charDelta; rw [if_pos hc]
        have hres := ih (i + 1) (count + charDelta c) k' hk hmin'
        rw [hdelta] at hres
        rw [hres]
        push_cast
        ring
    · rw [if_neg hc]
      by_cases hc2 : c = closeBrace
      · rw [if_pos hc2]
        have hdelta : charDelta c = -1 := by unfold charDelta; rw [if_neg hc, if_pos hc2]
        by_cases hz : count - 1 = 0
        · rw [if_pos hz]
          have h0 : isMatchAt (c :: rest) count 0 := by
            rw [isMatchAt_zero]
            exact ⟨hc2, by omega⟩
          have hk0 : k = 0 := by
            by_contra hne
            exact hmin 0 (Nat.pos_of_ne_zero hne) h0
          subst hk0
          simp
        · rw [if_neg hz]
          match k with
          | 0 =>
            rw [isMatchAt_zero] at hk
            exact absurd (by omega : count - 1 = 0) hz
          | k' + 1 =>
            rw [isMatchAt_cons] at hk
            have hmin' : ∀ m, m < k' → ¬ isMatchAt rest (count + charDelta c) m := by
              intro m hm hmm
              exact hmin (m + 1) (Nat.succ_lt_succ hm) ((isMatchAt_cons c rest count m).mpr hmm)
            have hres := ih (i + 1) (count + charDelta c) k' hk hmin'
            rw [hdelta] at hres
            have harith : count + -1 = count - 1 := by ring
            rw [harith] at hres
            rw [hres]
            push_cast
            ring
      · rw [if_neg hc2]
        have hdelta : charDelta c = 0 := by unfold charDelta; rw [if_neg hc, if_neg hc2]
        match k with
        | 0 =>
          rw [isMatchAt_zero] at hk
          exact absurd hk.1 hc2
        | k' + 1 =>
          rw [isMatchAt_cons] at hk
          have hmin' : ∀ m, m < k' → ¬ isMatchAt rest (count + charDelta c) m := by
            intro m hm hmm
            exact hmin (m + 1) (Nat.succ_lt_succ hm) ((isMatchAt_cons c rest count m).mpr hmm)
          have hres := ih (i + 1) (count + charDelta c) k' hk hmin'
          rw [hdelta, add_zero] at hres
          rw [hres]
          push_cast
          ring

theorem fmbAux_notfound : ∀ (l : List Char) (i : Nat) (count : Int),
    (∀ k, k < l.length → ¬ isMatchAt l count k) → fmbAux l i count = -1 := by
  intro l
  induction l with
  | nil => intro i count _; rfl
  | cons c rest ih =>
    intro i count hno
    have hstep : ∀ k, k < rest.length → ¬ isMatchAt rest (count + charDelta c) k := by
      intro k hk hm
      exact hno (k + 1) (by simpa using Nat.succ_lt_succ hk)
        ((isMatchAt_cons c rest count k).mpr hm)
    rw [fmbAux_cons]
    by_cases hc : c = openBrace
    · rw [if_pos hc]
      have hdelta : charDelta c = 1 := by unfold charDelta; rw [if_pos hc]
      have hres := ih (i + 1) (count + charDelta c) hstep
      rwa [hdelta] at hres
    · rw [if_neg hc]
      by_cases hc2 : c = closeBrace
      · rw [if_pos hc2]
        have hdelta : charDelta c = -1 := by unfold charDelta; rw [if_neg hc, if_pos hc2]
        by_cases hz : count - 1 = 0
        · exfalso
          refine hno 0 (by simp) ?_
          rw [isMatchAt_zero]
          exact ⟨hc2, by rw [hdelta]; omega⟩
        · rw [if_neg hz]
          have hres := ih (i + 1) (count + charDelta c) hstep
          rw [hdelta] at hres
          have harith : count + -1 = count - 1 := by ring
          rwa [harith] at hres
      · rw [if_neg hc2]
        have hdelta : charDelta c = 0 := by unfold charDelta; rw [if_neg hc, if_neg hc2]
        have hres := ih (i + 1) (count + charDelta c) hstep
        rwa [hdelta, add_zero] at hres

theorem strAppend_assoc (a b c : String) : a ++ b ++ c = a ++ (b ++ c) := by
  apply String.ext
  simp [String.data_append, List.append_assoc]

theorem strIn_self (s : String) : StrIn s s :=
  ⟨"", "", by simp [String.empty_append, String.append_empty]⟩

theorem strIn_append_left (pat a b : String) (h : StrIn pat a) : StrIn pat (a ++ b) := by
  obtain ⟨x, y, rfl⟩ := h
  exact ⟨x, y ++ b, by rw [strAppend_assoc, strAppend_assoc]⟩

theorem strIn_append_right (pat a b : String) (h : StrIn pat b) : StrIn pat (a ++ b) := by
  obtain ⟨x, y, rfl⟩ := h
  exact ⟨a ++ x, y, by rw [strAppend_assoc]⟩

theorem strIn_foldl_join (pat sep : String) : ∀ (l : List String) (acc : String),
    StrIn pat acc → StrIn pat (l.foldl (fun a y => a ++ sep ++ y) acc) := by
  intro l
  induction l with
  | nil => intro acc h; exact h
  | cons y ys ih =>
    intro acc h
    exact ih (acc ++ sep ++ y) (strIn_append_left pat (acc ++ sep) y
      (strIn_append_left pat acc sep h))

theorem strIn_mem_foldl_join (pat sep : String) : ∀ (l : List String) (acc : String),
    pat ∈ l → StrIn pat (l.foldl (fun a y => a ++ sep ++ y) acc) := by
  intro l
  induction l with
  | nil => intro acc h; exact absurd h (List.not_mem_nil pat)
  | cons y ys ih =>
    intro acc h
    rcases List.mem_cons.mp h with h | h
    · subst h
      exact strIn_foldl_join pat sep ys (acc ++ sep ++ pat)
        (strIn_append_right pat (acc ++ sep) pat (strIn_self pat))
    · exact ih (acc ++ sep ++ y) h

/-- A line of the list occurs in the joined string. -/
theorem strIn_pyJoin (pat sep : String) (l : List String) (h : pat ∈ l) :
    StrIn pat (pyJoin sep l) := by
  match l, h with
  | x :: xs, h =>
    rcases List.mem_cons.mp h with h | h
    · subst h
      exact strIn_foldl_join pat sep xs pat (strIn_self pat)
    · exact strIn_mem_foldl_join pat sep xs x h

/-- Folding the join step over a nonempty list from any seed produces the
seed, the separator, and the joined list. -/
theorem foldl_join_eq (sep : String) : ∀ (l : List String) (z x : String),
    (x :: l).foldl (fun a y => a ++ sep ++ y) z = z ++ sep ++ pyJoin sep (x :: l) := by
  intro l
  induction l with
  | nil => intro z x; simp [pyJoin]
  | cons y ys ih =>
    intro z x
    have h1 := ih (z ++ sep ++ x) y
    have h2 := ih x y
    have hpj : pyJoin sep (x :: y :: ys) = x ++ sep ++ pyJoin sep (y :: ys) := h2
    calc (x :: y :: ys).foldl (fun a y => a ++ sep ++ y) z
        = (y :: ys).foldl (fun a y => a ++ sep ++ y) (z ++ sep ++ x) := by
          simp [List.foldl_cons]
      _ = z ++ sep ++ x ++ sep ++ pyJoin sep (y :: ys) := h1
      _ = z ++ sep ++ (x ++ (sep ++ pyJoin sep (y :: ys))) := by
          simp only [strAppend_assoc]
      _ = z ++ sep ++ pyJoin sep (x :: y :: ys) := by
          rw [hpj]
          simp only [strAppend_assoc]

/-- A consecutive run of lines occurs, newline-joined, inside the joined
full list. -/
theorem strIn_pyJoin_infix (sep : String) (part l : List String)
    (hne : part ≠ []) (h : part <:+: l) :
    StrIn (pyJoin sep part) (pyJoin sep l) := by
  obtain ⟨s, t, rfl⟩ := h
  match part, hne with
  | p :: ps, _ =>
    match s with
    | [] =>
      simp only [List.nil_append]
      match t with
      | [] =>
        simp only [List.append_nil]
        exact strIn_self _
      | u :: us =>
        have : (p :: ps) ++ u :: us = p :: (ps ++ u :: us) := by simp
        rw [this]
        simp only [pyJoin]
        rw [List.foldl_append, foldl_join_eq sep us (ps.foldl (fun a y => a ++ sep ++ y) p) u]
        have hjoin : ps.foldl (fun a y => a ++ sep ++ y) p = pyJoin sep (p :: ps) := rfl
        rw [hjoin]
        exact strIn_append_left _ _ _ (strIn_append_left _ _ _ (strIn_self _))
    | w :: ws =>
      have hshape : (w :: ws) ++ (p :: ps) ++ t = w :: (ws ++ (p :: ps) ++ t) := by simp
      rw [hshape]
      simp only [pyJoin, List.foldl_append]
      rw [foldl_join_eq sep ps (ws.foldl (fun a y => a ++ sep ++ y) w) p]
      have hjoin : ps.foldl (fun a y => a ++ sep ++ y) p = pyJoin sep (p :: ps) := rfl
      rw [hjoin]
      have hbase : StrIn (pyJoin sep (p :: ps))
          (ws.foldl (fun a y => a ++ sep ++ y) w ++ sep ++ pyJoin sep (p :: ps)) :=
        strIn_append_right _ _ _ (strIn_self _)
      exact strIn_foldl_join _ sep t _ hbase

/-- Transitivity of substring occurrence. -/
theorem strIn_trans (a b c : String) (h1 : StrIn a b) (h2 : StrIn b c) : StrIn a c := by
  obtain ⟨x, y, rfl⟩ := h1
  obtain ⟨u, v, rfl⟩ := h2
  exact ⟨u ++ x, y ++ v, by simp only [strAppend_assoc]⟩

/-- C1: for every text and every start index at an opening brace, if the
braces from that index onward are balanced (some position closes the
brace, that is, the depth counter first returns to zero at a closing
brace), then _find_matching_brace returns exactly that position; and when
no position from the start onward ever brings the depth counter back to
zero, it returns the sentinel -1. -/
theorem c1_find_matching_brace_correct (content : List Char) (startPos : Nat)
    (hopen : content.get? startPos = some openBrace) :
    (∀ k, isMatchAt (content.drop startPos) 0 k →
        (∀ m, m < k → ¬ isMatchAt (content.drop startPos) 0 m) →
        findMatchingBrace content startPos = ((startPos : Int) + k)) ∧
    ((∀ k, k < (content.drop startPos).length → ¬ isMatchAt (content.drop startPos) 0 k) →
        findMatchingBrace content startPos = -1) := by
  constructor
  · intro k hk hmin
    exact fmbAux_found (content.drop startPos) startPos 0 k hk hmin
  · intro h
    exact fmbAux_notfound (content.drop startPos) startPos 0 h

/-- C1 witness: a nested text where the matching brace of position 1 sits
at position 7, and a text whose opening brace at position 2 never
closes. -/
theorem c1_witness :
    findMatchingBrace ("a\x7bb\x7bc\x7dd\x7de".toList) 1 = 7 ∧
    findMatchingBrace ("ab\x7bcd".toList) 2 = -1 := by
  constructor
  · have h := (c1_find_matching_brace_correct ("a\x7bb\x7bc\x7dd\x7de".toList) 1
      (by decide)).1 6 (by decide) (by decide)
    simpa using h
  · exact (c1_find_matching_brace_correct ("ab\x7bcd".toList) 2 (by decide)).2 (by decide)

/-- C2 counterexample: on a registry already qualified once (one message
M from a file with package p, so keys M and p.M), a second run of
_build_qualified_names adds the doubly-qualified key p.p.M, so the second
run does not produce the same mapping as the first. -/
theorem c2_counterexample :
    dlookup (buildQualifiedNames c2Reg).messages "p.p.M" = none ∧
    dlookup (buildQualifiedNames (buildQualifiedNames c2Reg)).messages "p.p.M" = some c2Msg := by
  exact ⟨rfl, rfl⟩

/-- C2 amended: a second qualification run never removes a key (every
message and enum key bound after the first run is still bound after the
second), but it is not idempotent: qualified keys get re-qualified, so
new doubly-qualified keys such as p.p.M appear, and binding preservation
is not guaranteed either.  On the one-message registry the key set grows
from M, p.M to M, p.M, p.p.M with every key bound to the original entity;
but on a registry whose dotted key q.q.j collides with the
re-qualification of the fresh key q.j, the second run rebinds q.q.j to a
different entity. -/
theorem c2_amended :
    (∀ (reg : Registry) (k : String),
        (dlookup (buildQualifiedNames reg).messages k).isSome →
        (dlookup (buildQualifiedNames (buildQualifiedNames reg)).messages k).isSome) ∧
    (∀ (reg : Registry) (k : String),
        (dlookup (buildQualifiedNames reg).enums k).isSome →
        (dlookup (buildQualifiedNames (buildQualifiedNames reg)).enums k).isSome) ∧
    ((buildQualifiedNames c2Reg).messages.map Prod.fst = ["M", "p.M"] ∧
     (buildQualifiedNames (buildQualifiedNames c2Reg)).messages.map Prod.fst =
       ["M", "p.M", "p.p.M"] ∧
     dlookup (buildQualifiedNames (buildQualifiedNames c2Reg)).messages "M" = some c2Msg ∧
     dlookup (buildQualifiedNames (buildQualifiedNames c2Reg)).messages "p.M" = some c2Msg ∧
     dlookup (buildQualifiedNames (buildQualifiedNames c2Reg)).messages "p.p.M" = some c2Msg) ∧
    (dlookup (buildQualifiedNames c2bReg).messages "q.q.j" = some c2bMsgQ ∧
     dlookup (buildQualifiedNames (buildQualifiedNames c2bReg)).messages "q.q.j" =
       some c2bMsgJ ∧
     ¬ (c2bMsgJ = c2bMsgQ)) := by
  refine ⟨?_, ?_, ⟨rfl, rfl, rfl, rfl, rfl⟩, rfl, rfl, by decide⟩
  · intro reg k h
    simp only [buildQualifiedNames, buildQualifiedDict]
    exact dlookup_isSome_dupdate _ _ k h
  · intro reg k h
    simp only [buildQualifiedNames, buildQualifiedDict]
    exact dlookup_isSome_dupdate _ _ k h

/-- C2 witness: the key-preservation part applied to the concrete
registry and key M. -/
theorem c2_amended_witness :
    (dlookup (buildQualifiedNames (buildQualifiedNames c2Reg)).messages "M").isSome :=
  c2_amended.1 c2Reg "M" (by decide)

theorem foldl_preserves {α β : Type} (P : α → Prop) (step : α → β → α)
    (h : ∀ a b, P a → P (step a b)) :
    ∀ (l : List β) (a : α), P a → P (l.foldl step a) := by
  intro l
  induction l with
  | nil => intro a ha; exact ha
  | cons b bs ih => intro a ha; exact ih (step a b) (h a b ha)

theorem refInv_dinsert (env : GenEnv) (acc : RefAcc) (k : String) (ent : RefEntry)
    (pkg : String) (hacc : refInv env acc) (hp : pkg ∉ mainPackages env) :
    refInv env (dinsert acc k (ent, pkg)) := by
  intro k' ent' pkg' h
  rw [dlookup_dinsert] at h
  by_cases hk : k' = k
  · rw [if_pos hk] at h
    obtain ⟨h1, h2⟩ := Prod.mk.injEq .. ▸ Option.some.injEq .. ▸ h
    cases h
    exact hp
  · rw [if_neg hk] at h
    exact hacc k' ent' pkg' h

theorem collectFieldStep_refInv (env : GenEnv) (recurse : ProtoMessage → RefAcc → RefAcc)
    (hrec : ∀ rm a, refInv env a → refInv env (recurse rm a)) :
    ∀ (acc : RefAcc) (f : ProtoField), refInv env acc →
      refInv env (collectFieldStep env recurse acc f) := by
  intro acc f hacc
  unfold collectFieldStep
  dsimp only
  repeat' split
  all_goals first
    | exact hacc
    | (rename_i hcond
       first
         | exact hrec _ _ (refInv_dinsert env acc f.type _ _ hacc hcond.2.1)
         | exact refInv_dinsert env acc f.type _ _ hacc hcond.2.1)

theorem collectFromMessage_refInv (env : GenEnv) :
    ∀ (fuel : Nat) (message : ProtoMessage) (visited : List String) (depth : Nat)
      (acc : RefAcc), refInv env acc →
      refInv env (collectFromMessage env fuel message visited depth acc) := by
  intro fuel
  induction fuel with
  | zero =>
    intro message visited depth acc hacc
    exact hacc
  | succ fuel ih =>
    intro message visited depth acc hacc
    rw [collectFromMessage]
    by_cases hguard : message.name ∈ visited ∨ depth > 2
    · rw [if_pos hguard]; exact hacc
    · rw [if_neg hguard]
      exact foldl_preserves (refInv env) _
        (fun a f ha => collectFieldStep_refInv env _
          (fun rm a2 ha2 => ih rm (message.name :: visited) (depth + 1) a2 ha2) a f ha)
        message.fields acc hacc

theorem collectSeed_refInv (env : GenEnv) (acc : RefAcc) (tname : String)
    (hacc : refInv env acc) : refInv env (collectSeed env acc tname) := by
  unfold collectSeed
  by_cases ht : tname ≠ ""
  · rw [if_pos ht]
    cases h : dlookup env.reg.messages tname with
    | some im => exact collectFromMessage_refInv env 3 im [] 0 acc hacc
    | none => exact hacc
  · rw [if_neg ht]
    exact hacc

/-- C3: the Reference Graph mapping never contains an entry whose owning
package is a primary (cloudservice) package; the traversal never goes
past depth 2 (a call beyond the bound leaves the accumulator untouched,
for every allowance, visited path and accumulator); and on a registry
with a reference cycle (A references B, B references A) the traversal
terminates and collects exactly A, B, C and D — D is reachable only
through the second sibling field of P, witnessing that the visited set is
branch-local (copied per recursive call), so siblings do not suppress
each other. -/
theorem c3_reference_graph :
    (∀ (env : GenEnv) (k : String) (ent : RefEntry) (pkg : String),
        dlookup (collectReferencedTypes env) k = some (ent, pkg) →
        pkg ∉ mainPackages env) ∧
    (∀ (env : GenEnv) (fuel : Nat) (message : ProtoMessage) (visited : List String)
        (depth : Nat) (acc : RefAcc), depth > 2 →
        collectFromMessage env fuel message visited depth acc = acc) ∧
    (collectReferencedTypes cycEnv =
      [("A", (RefEntry.msg cycMsgA, "other.v1")), ("B", (RefEntry.msg cycMsgB, "other.v1")),
       ("C", (RefEntry.msg cycMsgC, "other.v1")), ("D", (RefEntry.msg cycMsgD, "other.v1"))]) := by
  refine ⟨?_, ?_, rfl⟩
  · intro env k ent pkg h
    have hinv : refInv env (collectReferencedTypes env) := by
      unfold collectReferencedTypes
      refine foldl_preserves (refInv env) _ ?_ env.reg.services []
        (fun k ent pkg h => by simp [dlookup] at h)
      intro acc sv hacc
      exact foldl_preserves (refInv env) _
        (fun a m ha => collectSeed_refInv env _ m.outputType
          (collectSeed_refInv env a m.inputType ha))
        sv.2.methods acc hacc
    exact hinv k ent pkg h
  · intro env fuel message visited depth acc hdepth
    cases fuel with
    | zero => rfl
    | succ fuel =>
      rw [collectFromMessage, if_pos (Or.inr hdepth)]

/-- C3 witness: the package invariant applied at the concrete cyclic
registry, and the depth bound applied beyond the limit. -/
theorem c3_witness :
    "other.v1" ∉ mainPackages cycEnv ∧
    collectFromMessage cycEnv 3 cycMsgA [] 5 [] = [] :=
  ⟨c3_reference_graph.1 cycEnv "A" (RefEntry.msg cycMsgA) "other.v1" (by rfl),
   c3_reference_graph.2.1 cycEnv 3 cycMsgA [] 5 [] (by decide)⟩

/-- C4 counterexample: the example response JSON rendered for SayHello
(the HelloReply message of the Scenario 1 registry) is the document with
example_string, not the claimed document with example_name: the field
named message has type string, and the exact scalar default for string
takes precedence over the name-substring heuristic in
_get_example_value. -/
theorem c4_counterexample :
    (dlookup scenario1Reg.messages "HelloReply").bind (generateExampleJson scenario1Env 1) =
      some ("\x7b\n  \"message\": \"example_string\"\n\x7d") ∧
    ¬ ((dlookup scenario1Reg.messages "HelloReply").bind (generateExampleJson scenario1Env 1) =
      some ("\x7b\n  \"message\": \"example_name\"\n\x7d")) := by
  exact ⟨rfl, by decide⟩

/-- C4 amended: for the Scenario 1 input, the generated document contains
the Greeter navigation entry, the SayHello section heading, the request
table row (name, string, No, the placeholder description), and the
example response JSON for HelloReply, which equals the object mapping
message to example_string (not example_name: the scalar default for the
string type precedes the field-name heuristic). -/
theorem c4_amended :
    (generateHtml scenario1Env 1 = some (pyJoin "\n" scenario1DocList) ∧
     StrIn ("<a href=\"#greeter\" class=\"nav-link\">Greeter</a>")
       (pyJoin "\n" scenario1DocList) ∧
     StrIn ("<h3 id=\"sayhello\">SayHello</h3>") (pyJoin "\n" scenario1DocList) ∧
     StrIn (pyJoin "\n" ["<tr>", "<td><code>name</code></td>", "<td>string</td>", "<td>No</td>",
       "<td>No description available</td>", "</tr>"]) (pyJoin "\n" scenario1DocList) ∧
     StrIn ("\x7b\n  &quot;message&quot;: &quot;example_string&quot;\n\x7d")
       (pyJoin "\n" scenario1DocList)) ∧
    (dlookup scenario1Reg.messages "HelloReply").bind (generateExampleJson scenario1Env 1) =
      some ("\x7b\n  \"message\": \"example_string\"\n\x7d") := by
  refine ⟨⟨rfl, ?_, ?_, ?_, ?_⟩, rfl⟩
  · refine strIn_trans _ (generateSidebar scenario1Env) _ ?_ ?_
    · exact strIn_pyJoin _ "\n" (generateSidebarLines scenario1Env) (by decide)
    · exact strIn_pyJoin _ "\n" scenario1DocList (by decide)
  · exact strIn_pyJoin _ "\n" scenario1DocList (by decide)
  · exact strIn_pyJoin_infix "\n" _ scenario1DocList (by simp) (by decide)
  · exact strIn_pyJoin _ "\n" scenario1DocList (by decide)

/-- C5 counterexample: for the field payload_field of expandable type
Outer (no scalar default, no timestamp substring, no field-name
heuristic), the synthesized value recurses into the nested field m1 of
message type Mid, producing an inner object — the claim says no further
recursion happens — and its keys are m1 and s only: the source takes the
first three fields and then drops deprecated ones, so the third
non-deprecated field, extra, never appears, unlike the claimed first
three non-deprecated fields. -/
theorem c5_counterexample :
    getExampleValue c5Env 5 c5Field =
      some (.pobj [("m1", .pobj [("q", .pint 123)]), ("s", .pstr "example_string")]) ∧
    ((c5MsgOuter.fields.filter (fun f => ! f.isDeprecated)).take 3).map (fun f => f.name) =
      ["m1", "s", "extra"] ∧
    ¬ (["m1", "s"] = ["m1", "s", "extra"]) := by
  exact ⟨rfl, rfl, by decide⟩

/-- C5 amended: for every field whose lowercased base type has no scalar
default, no timestamp substring, and whose name triggers none of the
heuristics (suffix _id, substring email, substring name): if the type is
expandable the example value is the nested synthesis of
_get_nested_example_value, which takes the first three fields of the
resolved message, drops the deprecated ones among them, and values each
remaining field by the same synthesis — recursing further into
expandable field types; otherwise the value is the generic placeholder
derived from the field name. -/
theorem c5_amended :
    ∀ (env : GenEnv) (fuel : Nat) (f : ProtoField),
      dlookup scalarExamples (pyLower (lastSeg f.type)) = none →
      strContains (pyLower (lastSeg f.type)) "timestamp" = false →
      strEndsWith f.name "_id" = false →
      strContains (pyLower f.name) "email" = false →
      strContains (pyLower f.name) "name" = false →
      (shouldExpandType env f.type = true →
          getExampleValue env (fuel + 1) f = getNestedExampleValue env fuel f.type) ∧
      (shouldExpandType env f.type = false →
          getExampleValue env fuel f = some (.pstr ("example_" ++ f.name))) ∧
      (∀ (ftype : String) (rm : ProtoMessage),
          resolveTypeReference env ftype = some rm →
          getNestedExampleValue env fuel ftype =
            (nestedExampleFields env fuel (rm.fields.take 3)).map
              (fun prs => PyVal.pobj (prs.foldl (fun d q => dinsert d q.1 q.2) []))) := by
  intro env fuel f h1 h2 h3 h4 h5
  refine ⟨?_, ?_, ?_⟩
  · intro hexp
    rw [getExampleValue]
    rw [h1]
    rw [h2, h3, h4, h5, hexp]
    simp only [Bool.false_eq_true, if_false, if_true]
    rfl
  · intro hexp
    cases fuel with
    | zero =>
      rw [getExampleValue, h1, h2, h3, h4, h5, hexp]
      simp
    | succ fuel =>
      rw [getExampleValue, h1, h2, h3, h4, h5, hexp]
      simp
  · intro ftype rm hres
    rw [getNestedExampleValue, hres]

/-- C5 witness: the amended behaviour at the concrete field of type
Outer, with every hypothesis checked concretely. -/
theorem c5_witness :
    getExampleValue c5Env 1 c5Field = getNestedExampleValue c5Env 0 "Outer" :=
  (c5_amended c5Env 0 c5Field (by rfl) (by rfl) (by rfl) (by rfl) (by rfl)).1 (by rfl)

/-- C6: on a method body whose HTTP-binding block is
post slash-v1-widgets with an ordinary quoted body field-mask, the
extractor records the verb POST and the path, but http_body stays empty:
the body pattern is written as a raw string, so its doubled backslash
demands a literal backslash character after the body colon, which
ordinary input never has; the second conjunct shows the pattern accepting
exactly such a backslash-bearing input. -/
theorem c6_http_body_dropped :
    c6Services = [c6ExpectedService] ∧
    matchBodyAt (("body:" ++ String.singleton bslash ++ "ss" ++
      String.singleton dquote ++ "widget" ++ String.singleton dquote).toList) =
      some "widget" := by
  exact ⟨rfl, rfl⟩

theorem strToList_append (a b : String) : (a ++ b).toList = a.toList ++ b.toList := by
  cases a
  cases b
  rfl

theorem isPrefChars_append_of_le : ∀ (p x y : List Char), p.length ≤ x.length →
    isPrefChars p (x ++ y) = isPrefChars p x := by
  intro p
  induction p with
  | nil => intro x y _; rfl
  | cons c cs ih =>
    intro x y hlen
    cases x with
    | nil => simp at hlen
    | cons d ds =>
      simp only [List.cons_append, isPrefChars, List.append_eq]
      rw [ih ds y (by simpa using hlen)]

theorem pyStartsWith_append_left (a b p : String) (h : p.toList.length ≤ a.toList.length) :
    pyStartsWith (a ++ b) p = pyStartsWith a p := by
  unfold pyStartsWith
  rw [strToList_append, isPrefChars_append_of_le p.toList a.toList b.toList h]

/-- C7: for every method with an HTTP verb and path (and a nonempty input
type name, as the extractor always produces), whenever the curl parts
assemble: the -X flag part is absent exactly when the uppercased verb is
GET; the -d body part is present exactly when the verb is POST, PUT or
PATCH and the input resolves to a message with at least one field; the
part count is always at least four (the command word, the URL and two
headers are unconditional); and the assembled command is the one-line
space join when at most three parts exist, and the backslash-continued
multi-line join otherwise. -/
theorem c7_curl_example :
    ∀ (env : GenEnv) (fuel : Nat) (m : ProtoMethod) (parts : List String),
      m.httpMethod ≠ "" → m.httpPath ≠ "" → m.inputType ≠ "" →
      curlParts env fuel m = some parts →
      ((parts.any (fun p => pyStartsWith p "-X") = false) ↔ pyUpper m.httpMethod = "GET") ∧
      ((parts.any (fun p => pyStartsWith p "-d") = true) ↔
        (m.httpMethod ∈ (["POST", "PUT", "PATCH"] : List String) ∧
         ∃ im, dlookup env.reg.messages m.inputType = some im ∧ ¬ im.fields.isEmpty = true)) ∧
      4 ≤ parts.length ∧
      (∀ ps : List String, ps.length ≤ 3 → curlCommand ps = pyJoin " " ps) ∧
      (∀ ps : List String, 3 < ps.length → curlCommand ps =
        pyJoin "\n" ((ps.take 1).map (fun p => p ++ " " ++ String.singleton bslash) ++
          ((ps.drop 1).dropLast.map (fun p => "  " ++ p ++ " " ++ String.singleton bslash)) ++
          (ps.drop 1).getLast?.toList.map (fun p => "  " ++ p))) := by
  intro env fuel m parts hm hp hin hParts
  have hcmd1 : ∀ ps : List String, ps.length ≤ 3 → curlCommand ps = pyJoin " " ps := by
    intro ps h
    unfold curlCommand
    rw [if_pos h]
  have hcmd2 : ∀ ps : List String, 3 < ps.length → curlCommand ps =
      pyJoin "\n" ((ps.take 1).map (fun p => p ++ " " ++ String.singleton bslash) ++
        ((ps.drop 1).dropLast.map (fun p => "  " ++ p ++ " " ++ String.singleton bslash)) ++
        (ps.drop 1).getLast?.toList.map (fun p => "  " ++ p)) := by
    intro ps h
    unfold curlCommand
    rw [if_neg (by omega)]
  have cx : pyStartsWith "curl" "-X" = false := by decide
  have cd : pyStartsWith "curl" "-d" = false := by decide
  have h1x : pyStartsWith "-H \"Content-Type: application/json\"" "-X" = false := by decide
  have h2x : pyStartsWith "-H \"Authorization: Bearer YOUR_API_KEY\"" "-X" = false := by decide
  have h1d : pyStartsWith "-H \"Content-Type: application/json\"" "-d" = false := by decide
  have h2d : pyStartsWith "-H \"Authorization: Bearer YOUR_API_KEY\"" "-d" = false := by decide
  have ux : pyStartsWith ("\"https://saas-api.tmprl.cloud" ++ (m.httpPath ++ "\"")) "-X" = false := by
    rw [pyStartsWith_append_left _ _ _ (by decide)]
    decide
  have ud : pyStartsWith ("\"https://saas-api.tmprl.cloud" ++ (m.httpPath ++ "\"")) "-d" = false := by
    rw [pyStartsWith_append_left _ _ _ (by decide)]
    decide
  have xx : pyStartsWith ("-X " ++ pyUpper m.httpMethod) "-X" = true := by
    rw [pyStartsWith_append_left _ _ _ (by decide)]
    decide
  have xd : pyStartsWith ("-X " ++ pyUpper m.httpMethod) "-d" = false := by
    rw [pyStartsWith_append_left _ _ _ (by decide)]
    decide
  simp only [curlParts] at hParts
  by_cases hPPP : m.httpMethod ∈ (["POST", "PUT", "PATCH"] : List String)
  · have hX : ¬ pyUpper m.httpMethod = "GET" := by
      have h3 : m.httpMethod = "POST" ∨ m.httpMethod = "PUT" ∨ m.httpMethod = "PATCH" := by
        simpa using hPPP
      rcases h3 with h | h | h <;> (rw [h]; decide)
    rw [if_pos ⟨hPPP, hin⟩] at hParts
    rw [if_pos ⟨hm, hX⟩] at hParts
    cases hlook : dlookup env.reg.messages m.inputType with
    | none =>
      rw [hlook] at hParts
      simp only [pure] at hParts
      have hL := (Option.some.inj hParts).symm
      subst hL
      refine ⟨?_, ?_, ?_, hcmd1, hcmd2⟩
      · simp [List.any_append, List.any_cons, List.any_nil, cx, ux, h1x, h2x, xx, hX]
      · simp [List.any_append, List.any_cons, List.any_nil, cd, ud, h1d, h2d, xd, hlook]
      · simp
    | some im =>
      rw [hlook] at hParts
      dsimp only at hParts
      by_cases hfe : im.fields.isEmpty = true
      · rw [if_neg (not_not_intro hfe)] at hParts
        simp only [pure] at hParts
        have hL := (Option.some.inj hParts).symm
        subst hL
        refine ⟨?_, ?_, ?_, hcmd1, hcmd2⟩
        · simp [List.any_append, List.any_cons, List.any_nil, cx, ux, h1x, h2x, xx, hX]
        · simp [List.any_append, List.any_cons, List.any_nil, cd, ud, h1d, h2d, xd, hlook]
          intro _
          simpa using hfe
        · simp
      · rw [if_pos hfe] at hParts
        cases hjson : generateExampleJson env fuel im with
        | none =>
          rw [hjson] at hParts
          simp at hParts
        | some body =>
          rw [hjson] at hParts
          simp only [Option.bind_eq_bind, Option.some_bind, pure] at hParts
          have hL := (Option.some.inj hParts).symm
          subst hL
          have dd : pyStartsWith ("-d " ++ (String.singleton squoteChar ++
              (pyReplace body (String.singleton squoteChar)
                (String.singleton squoteChar ++ String.singleton dquote ++
                 String.singleton squoteChar ++ String.singleton dquote ++
                 String.singleton squoteChar) ++ String.singleton squoteChar))) "-d" = true := by
            rw [pyStartsWith_append_left _ _ _ (by decide)]
            decide
          have dx : pyStartsWith ("-d " ++ (String.singleton squoteChar ++
              (pyReplace body (String.singleton squoteChar)
                (String.singleton squoteChar ++ String.singleton dquote ++
                 String.singleton squoteChar ++ String.singleton dquote ++
                 String.singleton squoteChar) ++ String.singleton squoteChar))) "-X" = false := by
            rw [pyStartsWith_append_left _ _ _ (by decide)]
            decide
          refine ⟨?_, ?_, ?_, hcmd1, hcmd2⟩
          · simp [List.any_append, List.any_cons, List.any_nil, cx, ux, h1x, h2x, xx, dx, hX]
          · simp [List.any_append, List.any_cons, List.any_nil, cd, ud, h1d, h2d, xd, dd,
              hlook, hPPP]
            simpa using hfe
          · simp
  · have hC2 : ¬(m.httpMethod ∈ (["POST", "PUT", "PATCH"] : List String) ∧
        m.inputType ≠ "") := fun hc => hPPP hc.1
    rw [if_neg hC2] at hParts
    by_cases hX : pyUpper m.httpMethod = "GET"
    · have hC1 : ¬(m.httpMethod ≠ "" ∧ pyUpper m.httpMethod ≠ "GET") := fun h => h.2 hX
      rw [if_neg hC1] at hParts
      simp only [pure] at hParts
      have hL := (Option.some.inj hParts).symm
      subst hL
      refine ⟨?_, ?_, ?_, hcmd1, hcmd2⟩
      · simp [List.any_append, List.any_cons, List.any_nil, cx, ux, h1x, h2x, hX]
      · simp [List.any_append, List.any_cons, List.any_nil, cd, ud, h1d, h2d, hPPP]
      · simp
    · rw [if_pos ⟨hm, hX⟩] at hParts
      simp only [pure] at hParts
      have hL := (Option.some.inj hParts).symm
      subst hL
      refine ⟨?_, ?_, ?_, hcmd1, hcmd2⟩
      · simp [List.any_append, List.any_cons, List.any_nil, cx, ux, h1x, h2x, xx, hX]
      · simp [List.any_append, List.any_cons, List.any_nil, cd, ud, h1d, h2d, xd, hPPP]
      · simp

/-- Witness: the curl-example facts instantiated on the concrete POST
method c7Method, whose parts list indeed has at least the four
unconditional parts. -/
theorem c7_witness : 4 ≤ c7Parts.length ∧ c7Parts.any (fun p => pyStartsWith p "-d") = true :=
  have h := c7_curl_example c7Env 1 c7Method c7Parts (by decide) (by decide) (by decide) (by rfl)
  ⟨h.2.2.1, h.2.1.mpr ⟨by decide, c7InMsg, by rfl, by decide⟩⟩

/-- C8: when a method input or output type name resolves to no message in
the registry, the Request or Response section is the empty line list
(silently omitted); when a template asset is missing from the file system,
the loader substitutes the embedded fallback; and in the unresolved case
method rendering still succeeds, producing a line list that carries the
method heading. -/
theorem c8_missing_resolution_fallback :
    ∀ (env : GenEnv) (fuel : Nat) (m : ProtoMethod) (service : ProtoService) (tname : String),
      (dlookup env.reg.messages m.inputType = none → requestSection env m = []) ∧
      (dlookup env.reg.messages m.outputType = none → responseSection env m = []) ∧
      (env.fs tname = none → loadTemplate env tname = getFallbackTemplate tname) ∧
      (∀ ex, generateHtmlExample env fuel m = some ex →
        ∃ lines, generateHtmlMethodDocs env fuel m service = some lines ∧
          ("<h3 id=\"" ++ pyLower m.name ++ "\">" ++ htmlEscape m.name ++ "</h3>") ∈ lines) := by
  intro env fuel m service tname
  refine ⟨?_, ?_, ?_, ?_⟩
  · intro h
    unfold requestSection
    rw [h]
  · intro h
    unfold responseSection
    rw [h]
  · intro h
    unfold loadTemplate
    rw [h]
  · intro ex hex
    unfold generateHtmlMethodDocs
    rw [hex]
    simp only [Option.bind_eq_bind, Option.some_bind]
    exact ⟨_, rfl, by simp⟩

/-- Witness: on the empty registry, the orphan method loses both its
Request and Response sections, the missing head template falls back, and
rendering still yields lines containing the heading. -/
theorem c8_witness :
    requestSection c8Env c8Method = [] ∧
    responseSection c8Env c8Method = [] ∧
    loadTemplate c8Env "html_head.html" = getFallbackTemplate "html_head.html" ∧
    ∃ lines, generateHtmlMethodDocs c8Env 1 c8Method c8Service = some lines ∧
      ("<h3 id=\"" ++ pyLower c8Method.name ++ "\">" ++ htmlEscape c8Method.name ++ "</h3>") ∈
        lines :=
  have h := c8_missing_resolution_fallback c8Env 1 c8Method c8Service "html_head.html"
  ⟨h.1 (by rfl), h.2.1 (by rfl), h.2.2.1 (by rfl),
   h.2.2.2 ((generateHtmlExample c8Env 1 c8Method).getD []) (by rfl)⟩

/-- Inserting into a sorted-by-value list permutes the cons. -/
theorem insertByVal_perm (p : String × Nat) (l : List (String × Nat)) :
    List.Perm (insertByVal p l) (p :: l) := by
  induction l with
  | nil => exact List.Perm.refl _
  | cons q rest ih =>
    unfold insertByVal
    split
    · exact (ih.cons q).trans (List.Perm.swap p q rest)
    · exact List.Perm.refl _

/-- Inserting into a list sorted ascending by value keeps it sorted. -/
theorem insertByVal_sorted (p : String × Nat) (l : List (String × Nat))
    (h : l.Pairwise (fun a b => a.2 ≤ b.2)) :
    (insertByVal p l).Pairwise (fun a b => a.2 ≤ b.2) := by
  induction l with
  | nil => simp [insertByVal]
  | cons q rest ih =>
    rw [List.pairwise_cons] at h
    obtain ⟨hq, hrest⟩ := h
    unfold insertByVal
    split
    · rename_i hlt
      rw [List.pairwise_cons]
      refine ⟨?_, ih hrest⟩
      intro x hx
      have hx2 := (insertByVal_perm p rest).mem_iff.mp hx
      rcases List.mem_cons.mp hx2 with rfl | hxr
      · exact Nat.le_of_lt hlt
      · exact hq x hxr
    · rename_i hnlt
      rw [List.pairwise_cons]
      refine ⟨?_, List.pairwise_cons.mpr ⟨hq, hrest⟩⟩
      intro x hx
      rcases List.mem_cons.mp hx with rfl | hxr
      · exact Nat.le_of_not_lt hnlt
      · exact Nat.le_trans (Nat.le_of_not_lt hnlt) (hq x hxr)

/-- The sort is a permutation of the original binding list. -/
theorem sortByVal_perm (l : List (String × Nat)) : List.Perm (sortByVal l) l := by
  induction l with
  | nil => exact List.Perm.refl _
  | cons x xs ih =>
    exact ((insertByVal_perm x (sortByVal xs)).trans (ih.cons x) :
      List.Perm (insertByVal x (sortByVal xs)) (x :: xs))

/-- The sort output is ascending in the numeric value. -/
theorem sortByVal_sorted (l : List (String × Nat)) :
    (sortByVal l).Pairwise (fun a b => a.2 ≤ b.2) := by
  induction l with
  | nil => simp [sortByVal]
  | cons x xs ih => exact insertByVal_sorted x (sortByVal xs) ih

/-- A sublist occurrence survives extension on the left. -/
theorem isInfixExtendLeft {α : Type} (x : List α) {l m : List α}
    (h : List.IsInfix l m) : List.IsInfix l (x ++ m) := by
  obtain ⟨s, t, hst⟩ := h
  exact ⟨x ++ s, t, by rw [← hst]; simp [List.append_assoc]⟩

/-- C9: the Types appendix lists every enum value in ascending numeric
order regardless of declaration order: the rendered rows iterate the
Python sorted items, which are an ascending-by-value permutation of the
declared bindings, and for a nonempty enum those rows appear verbatim
inside the appendix block for the enum. -/
theorem c9_enum_values_sorted :
    ∀ (env : GenEnv) (tn pkg : String) (e : ProtoEnum),
      (sortByVal e.values).Pairwise (fun a b => a.2 ≤ b.2) ∧
      List.Perm (sortByVal e.values) e.values ∧
      enumValueRows e = (sortByVal e.values).foldl
        (fun acc v =>
          acc ++ ["<tr>", "<td><code>" ++ htmlEscape v.1 ++ "</code></td>",
            "<td>" ++ toString v.2 ++ "</td>", "</tr>"]) [] ∧
      (¬ e.values.isEmpty = true →
        List.IsInfix (enumValueRows e) (flatTypeBlock env tn (RefEntry.enum e) pkg)) := by
  intro env tn pkg e
  refine ⟨sortByVal_sorted _, sortByVal_perm _, rfl, ?_⟩
  intro hne
  unfold flatTypeBlock
  dsimp only
  rw [if_pos hne]
  simp only [List.append_assoc]
  exact isInfixExtendLeft _ (isInfixExtendLeft _ (isInfixExtendLeft _
    (List.prefix_append _ _).isInfix))

/-- Witness: the out-of-order Color enum renders its rows inside the
appendix block, and the sort puts BLUE, GREEN, RED in numeric order. -/
theorem c9_witness :
    List.IsInfix (enumValueRows c9Enum) (flatTypeBlock c9Env "Color" (RefEntry.enum c9Enum) "other.v1") ∧
    sortByVal c9Enum.values = [("BLUE", 0), ("GREEN", 1), ("RED", 2)] :=
  ⟨(c9_enum_values_sorted c9Env "Color" "other.v1" c9Enum).2.2.2 (by decide), by decide⟩

/-- C10: a parsed field is flagged deprecated exactly when its lowercased
bracketed-options capture contains the exact substring deprecated space
equals space true; the spacing variants without both spaces are treated as
active, as the extracted fields of the Opts message show (only the exact
marker, the second bracket option with the exact marker, and the
uppercase spelling—lowercased before the test—set the flag). -/
theorem c10_deprecated_marker :
    (∀ (label ftype fname : String) (num : Nat) (opts comment : String),
      (mkProtoField label ftype fname num opts comment).isDeprecated =
        strContains (pyLower opts) "deprecated = true") ∧
    c10Messages.map (fun m => m.fields.map (fun f => (f.name, f.isDeprecated))) =
      [[("a", true), ("b", false), ("c", false), ("d", true), ("e", true)]] :=
  ⟨fun _ _ _ _ _ _ => rfl, by decide⟩
